import Mathlib

/-!
Shallow embedding of the CSV import logic of the finance-friend repository.

The embedding covers the three CSV import dialogs:

* `TxnImport`  — `src/components/transactions/CSVImportDialog.tsx`
* `AcctImport` — `src/components/accounts/AccountCSVImportDialog.tsx`
* `ExtImport`  — the extended transactions import dialog (`src/unnamed/part_003`)

JavaScript strings are modelled as Lean `String` (with helpers working on the
underlying `List Char`); a value of type `string | undefined` is modelled as
`Option String`, with `none` standing for both `undefined` and the places
where the source collapses the empty string into `undefined`/`null` through
JavaScript truthiness (`x || undefined`, `x || null`).  JavaScript numbers
produced by `parseFloat` are modelled by `JSNum` (a rational, or one of the
two infinities); `NaN` is modelled by `none` in `Option JSNum`.  Whitespace
is the ASCII whitespace set recognised by JavaScript's `\s`, `trim` and
`parseFloat`.
-/

namespace FinanceFriend

/-- ASCII whitespace as used by JavaScript `\s`, `String.prototype.trim` and
`parseFloat` (the model restricts attention to ASCII character data). -/
def isJsWs (c : Char) : Bool :=
  c = ' ' || c = '\t' || c = '\n' || c = '\r' || c = '\x0b' || c = '\x0c'

/-- Model of `String.prototype.trimStart` restricted to ASCII whitespace. -/
def trimStartJs (l : List Char) : List Char := l.dropWhile isJsWs

/-- Model of trailing-whitespace removal (`String.prototype.trimEnd`). -/
def trimEndJs : List Char → List Char
  | [] => []
  | c :: rest =>
    match trimEndJs rest with
    | [] => if isJsWs c then [] else [c]
    | r => c :: r

/-- Model of `String.prototype.trim`. -/
def jsTrim (l : List Char) : List Char := trimEndJs (trimStartJs l)

/-- `trim` at the `String` level. -/
def trimS (s : String) : String := ⟨jsTrim s.data⟩

/-- Model of `String.prototype.toLowerCase` (ASCII). -/
def lowerS (s : String) : String := ⟨s.data.map Char.toLower⟩

/-- Model of `str.split(sep)` for a single-character separator: JavaScript's
split never drops fields, and `"".split(sep)` is `[""]`. -/
def splitChar (sep : Char) : List Char → List (List Char)
  | [] => [[]]
  | c :: rest =>
    if c = sep then [] :: splitChar sep rest
    else
      match splitChar sep rest with
      | [] => [[c]]
      | l :: ls => (c :: l) :: ls

/-- Does the first list occur at the start of the second list? -/
def startsWithList : List Char → List Char → Bool
  | [], _ => true
  | _ :: _, [] => false
  | a :: as, b :: bs => a = b && startsWithList as bs

/-- Numeric value of a list of decimal digit characters. -/
def digitsVal (ds : List Char) : Nat := ds.foldl (fun a c => 10 * a + (c.toNat - 48)) 0

/-- A JavaScript number that is not `NaN`: a finite value (modelled as a
rational) or one of the two infinities.  `NaN` itself is modelled by `none`
at type `Option JSNum`. -/
inductive JSNum where
  | fin (q : ℚ)
  | posInf
  | negInf
deriving DecidableEq, Repr

/-- Exponent of a JavaScript float literal: consumed only when `e`/`E` is
followed by at least one digit (otherwise `parseFloat` stops before it). -/
def expPart (cs : List Char) : Int :=
  match cs with
  | c :: r =>
    if c = 'e' || c = 'E' then
      match r with
      | '+' :: t => if (t.takeWhile Char.isDigit).isEmpty then 0 else (digitsVal (t.takeWhile Char.isDigit) : Int)
      | '-' :: t => if (t.takeWhile Char.isDigit).isEmpty then 0 else -(digitsVal (t.takeWhile Char.isDigit) : Int)
      | _ => if (r.takeWhile Char.isDigit).isEmpty then 0 else (digitsVal (r.takeWhile Char.isDigit) : Int)
    else 0
  | [] => 0

/-- Unsigned part of `parseFloat`: integer digits, optional fraction, optional
exponent; `none` when there is no digit in the mantissa. -/
def parseUnsigned (cs : List Char) : Option ℚ :=
  let ip := cs.takeWhile Char.isDigit
  let rest := cs.drop ip.length
  let fp := match rest with
    | '.' :: r => r.takeWhile Char.isDigit
    | _ => []
  let rest2 := match rest with
    | '.' :: r => r.drop (r.takeWhile Char.isDigit).length
    | _ => rest
  if ip.isEmpty && fp.isEmpty then none
  else some ((digitsVal ip + (digitsVal fp : ℚ) / ((10 : ℚ) ^ fp.length)) * (10 : ℚ) ^ expPart rest2)

/-- Model of JavaScript `parseFloat`: skip leading whitespace, optional sign,
then `Infinity` or a decimal literal; `none` models `NaN`. -/
def jsParseFloat (s : String) : Option JSNum :=
  let cs := s.data.dropWhile isJsWs
  let sgncs : Bool × List Char :=
    match cs with
    | '+' :: t => (false, t)
    | '-' :: t => (true, t)
    | _ => (false, cs)
  if startsWithList "Infinity".data sgncs.2 then
    some (if sgncs.1 then JSNum.negInf else JSNum.posInf)
  else
    (parseUnsigned sgncs.2).map (fun q => JSNum.fin (if sgncs.1 then -q else q))

/-- Is `c` a hexadecimal digit character? -/
def isHexDigitCh (c : Char) : Bool :=
  c.isDigit || ('a' ≤ c && c ≤ 'f') || ('A' ≤ c && c ≤ 'F')

/-- Numeric value of a hexadecimal digit character. -/
def hexDigitVal (c : Char) : Nat :=
  if c.isDigit then c.toNat - 48
  else if 'a' ≤ c && c ≤ 'f' then c.toNat - 87
  else c.toNat - 55

/-- Numeric value of a list of hexadecimal digit characters. -/
def hexVal (ds : List Char) : Nat := ds.foldl (fun a c => 16 * a + hexDigitVal c) 0

/-- Model of JavaScript `parseInt` with no radix argument: skip leading
whitespace, optional sign, optional `0x`/`0X` marking base 16, then the
longest run of digits; `none` models `NaN`. -/
def jsParseInt (s : String) : Option Int :=
  let cs := s.data.dropWhile isJsWs
  let sgncs : Bool × List Char :=
    match cs with
    | '+' :: t => (false, t)
    | '-' :: t => (true, t)
    | _ => (false, cs)
  match sgncs.2 with
  | '0' :: 'x' :: t =>
    let ds := t.takeWhile isHexDigitCh
    if ds.isEmpty then none else some ((if sgncs.1 then -1 else 1) * (hexVal ds : Int))
  | '0' :: 'X' :: t =>
    let ds := t.takeWhile isHexDigitCh
    if ds.isEmpty then none else some ((if sgncs.1 then -1 else 1) * (hexVal ds : Int))
  | other =>
    let ds := other.takeWhile Char.isDigit
    if ds.isEmpty then none else some ((if sgncs.1 then -1 else 1) * (digitsVal ds : Int))

/-- JavaScript truthiness of a non-`NaN` number: `0` is falsy. -/
def jsnumTruthy : JSNum → Bool
  | JSNum.fin q => if q = 0 then false else true
  | JSNum.posInf => true
  | JSNum.negInf => true

/-- Model of `parseFloat(x) || 0`: `NaN` and `0` collapse to `0`. -/
def jsOrZero (o : Option JSNum) : JSNum :=
  match o with
  | none => JSNum.fin 0
  | some v => if jsnumTruthy v then v else JSNum.fin 0

/-- Model of `s || undefined` on a string: the empty string collapses to
`undefined`. -/
def jsOrUndef (s : String) : Option String :=
  if s = "" then none else some s

/-- Model of `x || null` on a `string | undefined` value. -/
def jsOrNullStr (o : Option String) : Option String :=
  match o with
  | none => none
  | some s => if s = "" then none else some s

/-- Model of `str.replace(/,/g, '')` (used for comma-formatted amounts). -/
def stripCommas (s : String) : String := ⟨s.data.filter (fun c => c ≠ ',')⟩

/-- Model of the regular-expression test `^\d{4}-\d{2}-\d{2}$`. -/
def dateFmtOk (s : String) : Bool :=
  match s.data with
  | [a, b, c, d, h1, e, f, h2, g, k] =>
    a.isDigit && b.isDigit && c.isDigit && d.isDigit && h1 = '-' &&
    e.isDigit && f.isDigit && h2 = '-' && g.isDigit && k.isDigit
  | _ => false

/-- An entity row (`{ id, name }`) as passed to the import dialogs. -/
structure EntityRef where
  id : String
  name : String
deriving DecidableEq, Repr

/-- Quote-aware field splitter `parseCSVLine` (loop state: fields so far is
implicit in the recursion, `cur` is the field being built, `inQ` the
`inQuotes` flag).  A `"` toggles the flag and is dropped; the delimiter ends
a field only outside quotes; every other character is appended to `cur`. -/
def parseCSVLineAux (d : Char) : List Char → List Char → Bool → List (List Char)
  | [], cur, _ => [cur]
  | c :: rest, cur, inQ =>
    if c = '"' then parseCSVLineAux d rest cur (!inQ)
    else if c = d && !inQ then cur :: parseCSVLineAux d rest [] inQ
    else parseCSVLineAux d rest (cur ++ [c]) inQ

/-- `parseCSVLine(line, delimiter)` from the import dialogs (the transactions
dialog's copy is the `d = ','` instance). -/
def parseCSVLine (d : Char) (line : List Char) : List (List Char) :=
  parseCSVLineAux d line [] false

/-- The `headers.forEach((header, index) => { row[header] = ... })` loop:
the row object as an assignment list (later assignments win on duplicate
headers).  The transactions dialogs trim each looked-up value. -/
def rowAssigns (headers values : List String) : List (String × String) :=
  headers.enum.map (fun p => (p.2, trimS ((values.get? p.1).getD "")))

/-- Assignment list without the per-value trim (the account dialog trims its
values before the loop). -/
def rowAssignsRaw (headers values : List String) : List (String × String) :=
  headers.enum.map (fun p => (p.2, (values.get? p.1).getD ""))

/-- Reading `row[k]`: the last assignment to `k` wins; an absent key reads as
`undefined`, which every use in the source treats like the empty string. -/
def rowGet (assigns : List (String × String)) (k : String) : String :=
  match (assigns.filter (fun p => p.1 == k)).getLast? with
  | some p => p.2
  | none => ""

/-- Case-insensitive entity lookup
`list.find(e => e.name.toLowerCase() === field?.toLowerCase())`. -/
def findByNameCI (es : List EntityRef) (field : Option String) : Option EntityRef :=
  es.find? (fun e => some (lowerS e.name) == field.map lowerS)

namespace TxnImport

/-- `VALID_TRANSACTION_TYPES` from `CSVImportDialog.tsx`. -/
def VALID_TRANSACTION_TYPES : List String := ["Debit", "Credit"]

/-- `VALID_MODES` from `CSVImportDialog.tsx`. -/
def VALID_MODES : List String :=
  ["UPI", "NEFT", "IMPS", "RTGS", "Cheque", "BBPS", "EMI", "Cash", "Card", "Other"]

/-- `VALID_NATURES` from `CSVImportDialog.tsx`. -/
def VALID_NATURES : List String :=
  ["Money Transfer", "Auto Sweep", "System Charge", "Charge", "Reversal", "Rewards",
   "Purchase", "Income", "Other"]

/-- Header normalization of the simple transactions dialog:
`h.trim().toLowerCase().replace(/\s+/g, '_')` (each maximal whitespace run
becomes a single underscore). -/
def collapseWs : Bool → List Char → List Char
  | _, [] => []
  | prevWs, c :: rest =>
    if isJsWs c then
      if prevWs then collapseWs true rest else '_' :: collapseWs true rest
    else c :: collapseWs false rest

/-- `h => h.trim().toLowerCase().replace(/\s+/g, '_')`. -/
def normalizeHeader (h : String) : String := ⟨collapseWs false (lowerS (trimS h)).data⟩

/-- The validation block of `parseCSV` (`CSVImportDialog.tsx`, lines 91-112):
each failed check appends its own message to `errors`. -/
def rowErrors (td am tt tm tn : String) : List String :=
  (if td = "" then ["Date is required"] else []) ++
  (if am = "" ∨ jsParseFloat am = none then ["Valid amount is required"] else []) ++
  (if tt = "" ∨ tt ∉ VALID_TRANSACTION_TYPES then ["Type must be Debit or Credit"] else []) ++
  (if tm ≠ "" ∧ tm ∉ VALID_MODES then ["Invalid mode: " ++ tm] else []) ++
  (if tn ≠ "" ∧ tn ∉ VALID_NATURES then ["Invalid nature: " ++ tn] else []) ++
  (if td ≠ "" ∧ ¬ dateFmtOk td then ["Date must be YYYY-MM-DD format"] else [])

/-- `ParsedTransaction` of the simple transactions dialog. -/
structure ParsedTransaction where
  transaction_date : String
  amount : JSNum
  transaction_type : String
  description : Option String
  party : Option String
  bank_remarks : Option String
  account_name : Option String
  category_name : Option String
  transaction_mode : Option String
  transaction_nature : Option String
  isValid : Bool
  errors : List String
deriving DecidableEq, Repr

/-- Building one `ParsedTransaction` from a row object. -/
def parseRow (row : String → String) : ParsedTransaction :=
  let errors := rowErrors (row "transaction_date") (row "amount")
    (row "transaction_type") (row "transaction_mode") (row "transaction_nature")
  { transaction_date := row "transaction_date"
    amount := jsOrZero (jsParseFloat (row "amount"))
    transaction_type := if row "transaction_type" = "" then "Debit" else row "transaction_type"
    description := jsOrUndef (row "description")
    party := jsOrUndef (row "party")
    bank_remarks := jsOrUndef (row "bank_remarks")
    account_name := jsOrUndef (row "account_name")
    category_name := jsOrUndef (row "category_name")
    transaction_mode := jsOrUndef (row "transaction_mode")
    transaction_nature := jsOrUndef (row "transaction_nature")
    isValid := errors.isEmpty
    errors := errors }

/-- `parseCSV` of the simple transactions dialog: trim, split on `'\n'`,
return `[]` below two lines, else parse each data line against the
normalized headers of the first line. -/
def parseCSV (content : String) : List ParsedTransaction :=
  let lines : List String := (splitChar '\n' (jsTrim content.data)).map (fun l => (⟨l⟩ : String))
  if lines.length < 2 then []
  else
    let headers := (splitChar ',' (lines.headD "").data).map (fun h => normalizeHeader ⟨h⟩)
    (lines.drop 1).map (fun line =>
      let values := (parseCSVLine ',' line.data).map (fun v => (⟨v⟩ : String))
      parseRow (rowGet (rowAssigns headers values)))

/-- One element of `transactionsToInsert` (`CSVImportDialog.tsx`, lines
192-215).  The `day` column — `format(new Date(t.transaction_date), 'EEEE')`,
a date-library call — is not referenced by any claim and is omitted. -/
structure TxnInsert where
  user_id : String
  transaction_date : String
  amount : JSNum
  transaction_type : String
  description : Option String
  party : Option String
  bank_remarks : Option String
  account_id : Option String
  category_id : Option String
  transaction_mode : Option String
  transaction_nature : Option String
deriving DecidableEq, Repr

/-- The record built for insertion from one valid transaction. -/
def txnToInsert (userId : String) (accounts categories : List EntityRef)
    (t : ParsedTransaction) : TxnInsert :=
  { user_id := userId
    transaction_date := t.transaction_date
    amount := t.amount
    transaction_type := t.transaction_type
    description := jsOrNullStr t.description
    party := jsOrNullStr t.party
    bank_remarks := jsOrNullStr t.bank_remarks
    account_id := jsOrNullStr ((findByNameCI accounts t.account_name).map EntityRef.id)
    category_id := jsOrNullStr ((findByNameCI categories t.category_name).map EntityRef.id)
    transaction_mode := jsOrNullStr t.transaction_mode
    transaction_nature := jsOrNullStr t.transaction_nature }

/-- Column names of the object literal inserted into `transactions` by the
simple dialog. -/
def txnInsertColumns : List String :=
  ["user_id", "transaction_date", "day", "amount", "transaction_type", "description",
   "party", "bank_remarks", "account_id", "category_id", "transaction_mode",
   "transaction_nature"]

end TxnImport

/-- `h.toLowerCase().replace(/[\s_-]+/g, '')`: lowercase, then delete every
whitespace, underscore and hyphen character (the replacement is empty, so the
run-based regex deletes exactly those characters). -/
def stripSepLower (s : String) : String :=
  ⟨(lowerS s).data.filter (fun c => !(isJsWs c || c = '_' || c = '-'))⟩

namespace AcctImport

/-- `HEADER_MAP` from `AccountCSVImportDialog.tsx` (object literal as an
association list; all keys are distinct). -/
def HEADER_MAP : List (String × String) :=
  [("name", "name"),
   ("account_name", "name"),
   ("accountname", "name"),
   ("account_type", "account_type"),
   ("accounttype", "account_type"),
   ("type", "account_type"),
   ("opening_balance", "opening_balance"),
   ("openingbalance", "opening_balance"),
   ("balance", "opening_balance"),
   ("currency", "currency"),
   ("issuer_name", "issuer_name"),
   ("issuername", "issuer_name"),
   ("issuer", "issuer_name"),
   ("bank", "issuer_name"),
   ("account_number", "account_number"),
   ("accountnumber", "account_number"),
   ("account_variant", "account_variant"),
   ("accountvariant", "account_variant"),
   ("variant", "account_variant"),
   ("card_network", "card_network"),
   ("cardnetwork", "card_network"),
   ("network", "card_network"),
   ("network_variant", "network_variant"),
   ("networkvariant", "network_variant"),
   ("credit_limit", "credit_limit"),
   ("creditlimit", "credit_limit"),
   ("limit", "credit_limit"),
   ("statement_day", "statement_day"),
   ("statementday", "statement_day"),
   ("repayment_day", "repayment_day"),
   ("repaymentday", "repayment_day"),
   ("due_day", "repayment_day"),
   ("dueday", "repayment_day")]

/-- `normalizeHeader` of the account dialog: normalize, then
`HEADER_MAP[normalized] || normalized` (every map value is a non-empty
literal, so `||` is exactly "key absent"). -/
def normalizeHeader (h : String) : String :=
  let normalized := stripSepLower h
  (HEADER_MAP.lookup normalized).getD normalized

/-- `VALID_ACCOUNT_TYPES` from `AccountCSVImportDialog.tsx` line 87. -/
def VALID_ACCOUNT_TYPES : List String :=
  ["Bank Account", "Credit Card", "Cash", "Demat", "Loan", "Overdraft", "Wallet", "BNPL"]

/-- The `typeMap` object literal (lines 133-146). -/
def typeMap : List (String × String) :=
  [("bankaccount", "Bank Account"),
   ("bank", "Bank Account"),
   ("savings", "Bank Account"),
   ("creditcard", "Credit Card"),
   ("credit", "Credit Card"),
   ("cash", "Cash"),
   ("demat", "Demat"),
   ("loan", "Loan"),
   ("overdraft", "Overdraft"),
   ("wallet", "Wallet"),
   ("bnpl", "BNPL"),
   ("buynowpaylater", "BNPL")]

/-- The `networkMap` object literal (lines 157-168). -/
def networkMap : List (String × String) :=
  [("visa", "Visa"),
   ("mastercard", "Mastercard"),
   ("rupay", "Rupay"),
   ("amex", "Amex"),
   ("americanexpress", "Amex"),
   ("diners", "Diners"),
   ("dinersclub", "Diners"),
   ("discover", "Discover"),
   ("jcb", "JCB"),
   ("other", "Other")]

/-- Account-type resolution (lines 129-147): empty input keeps the initial
`'Bank Account'`, otherwise `typeMap[normalizedType] || 'Bank Account'`. -/
def resolveAccountType (raw : String) : String :=
  if raw = "" then "Bank Account"
  else (typeMap.lookup (stripSepLower raw)).getD "Bank Account"

/-- Card-network resolution (lines 153-170): `networkMap[toLowerCase]`, which
may stay `undefined`. -/
def resolveCardNetwork (raw : String) : Option String :=
  if raw = "" then none
  else networkMap.lookup (lowerS raw)

/-- The validation block of the account `parseCSV` (lines 122-151): the name
check, and the account-type check guarded by a non-empty `account_type`. -/
def rowErrors (name account_type : String) : List String :=
  (if name = "" then ["Account name is required"] else []) ++
  (if account_type ≠ "" ∧ resolveAccountType account_type ∉ VALID_ACCOUNT_TYPES
   then ["Invalid account type: " ++ account_type] else [])

/-- `ParsedAccount` of the account dialog.  `credit_limit` is
`row.credit_limit ? parseFloat(row.credit_limit) : undefined`: the outer
`Option` is `undefined`, the inner one is `NaN`; likewise the `parseInt`
day fields. -/
structure ParsedAccount where
  rowIndex : Nat
  name : String
  account_type : String
  opening_balance : JSNum
  currency : String
  issuer_name : Option String
  account_number : Option String
  account_variant : Option String
  card_network : Option String
  network_variant : Option String
  credit_limit : Option (Option JSNum)
  statement_day : Option (Option Int)
  repayment_day : Option (Option Int)
  isValid : Bool
  errors : List String
deriving DecidableEq, Repr

/-- Building one `ParsedAccount` from a row object (lines 122-188). -/
def parseRow (i : Nat) (row : String → String) : ParsedAccount :=
  let errors := rowErrors (row "name") (row "account_type")
  { rowIndex := i
    name := row "name"
    account_type := resolveAccountType (row "account_type")
    opening_balance := jsOrZero (jsParseFloat (row "opening_balance"))
    currency := if row "currency" = "" then "INR" else row "currency"
    issuer_name := jsOrUndef (row "issuer_name")
    account_number := jsOrUndef (row "account_number")
    account_variant := jsOrUndef (row "account_variant")
    card_network := resolveCardNetwork (row "card_network")
    network_variant := jsOrUndef (row "network_variant")
    credit_limit := if row "credit_limit" = "" then none else some (jsParseFloat (row "credit_limit"))
    statement_day := if row "statement_day" = "" then none else some (jsParseInt (row "statement_day"))
    repayment_day := if row "repayment_day" = "" then none else some (jsParseInt (row "repayment_day"))
    isValid := errors.isEmpty
    errors := errors }

/-- `v.trim().replace(/^"|"$/g, '')`: one leading and one trailing
double-quote of the trimmed value are removed. -/
def stripEdgeQuotes (l : List Char) : List Char :=
  let l1 := match l with
    | '"' :: t => t
    | _ => l
  match l1.getLast? with
  | some '"' => l1.dropLast
  | _ => l1

/-- `stripEdgeQuotes` at the `String` level. -/
def stripEdgeQuotesS (s : String) : String := ⟨stripEdgeQuotes s.data⟩

/-- `parseCSV` of the account dialog (lines 107-194): trim, split on `'\n'`,
return `[]` below two lines, else one `ParsedAccount` per data line
(`rowIndex` is the 1-based data line index, matching the loop variable). -/
def parseCSV (content : String) : List ParsedAccount :=
  let lines : List String := (splitChar '\n' (jsTrim content.data)).map (fun l => (⟨l⟩ : String))
  if lines.length < 2 then []
  else
    let headers := (splitChar ',' (lines.headD "").data).map (fun h => normalizeHeader (trimS ⟨h⟩))
    (lines.drop 1).enum.map (fun p =>
      let values := (splitChar ',' p.2.data).map (fun v => stripEdgeQuotesS (trimS ⟨v⟩))
      parseRow (p.1 + 1) (rowGet (rowAssignsRaw headers values)))

/-- Model of `x || null` on an `Option (Option JSNum)` field (`undefined`,
`NaN` and `0` all collapse to `null`). -/
def jsNumOptOrNull (o : Option (Option JSNum)) : Option JSNum :=
  match o with
  | some (some v) => if jsnumTruthy v then some v else none
  | _ => none

/-- Model of `x || null` on an `Option (Option Int)` field. -/
def jsIntOptOrNull (o : Option (Option Int)) : Option Int :=
  match o with
  | some (some v) => if v = 0 then none else some v
  | _ => none

/-- One element of `accountsToInsert` (`handleImport`, lines 221-236). -/
structure AccountInsert where
  user_id : String
  name : String
  account_type : String
  opening_balance : JSNum
  closing_balance : JSNum
  currency : String
  issuer_name : Option String
  account_number : Option String
  account_variant : Option String
  card_network : Option String
  network_variant : Option String
  credit_limit : Option JSNum
  statement_day : Option Int
  repayment_day : Option Int
deriving DecidableEq, Repr

/-- The record built for insertion from one valid account; `closing_balance`
is set to the parsed `opening_balance` (line 226). -/
def accountToInsert (userId : String) (a : ParsedAccount) : AccountInsert :=
  { user_id := userId
    name := a.name
    account_type := a.account_type
    opening_balance := a.opening_balance
    closing_balance := a.opening_balance
    currency := a.currency
    issuer_name := jsOrNullStr a.issuer_name
    account_number := jsOrNullStr a.account_number
    account_variant := jsOrNullStr a.account_variant
    card_network := jsOrNullStr a.card_network
    network_variant := jsOrNullStr a.network_variant
    credit_limit := jsNumOptOrNull a.credit_limit
    statement_day := jsIntOptOrNull a.statement_day
    repayment_day := jsIntOptOrNull a.repayment_day }

/-- Column names of the object literal inserted into `accounts` by the
account CSV import (lines 221-236). -/
def accountInsertColumns : List String :=
  ["user_id", "name", "account_type", "opening_balance", "closing_balance", "currency",
   "issuer_name", "account_number", "account_variant", "card_network", "network_variant",
   "credit_limit", "statement_day", "repayment_day"]

end AcctImport

namespace ExtImport

/-- `HEADER_MAP` from the extended transactions dialog (`part_003`,
lines 84-112), including the snake_case "backward compatibility" keys. -/
def HEADER_MAP : List (String × String) :=
  [("txnid", "txn_id"),
   ("txndate", "transaction_date"),
   ("txnday", "day"),
   ("bankremarks", "bank_remarks"),
   ("amount", "amount"),
   ("currency", "currency"),
   ("txntype", "transaction_type"),
   ("accountid", "account_name"),
   ("accounttype", "account_type"),
   ("relatedtxn", "related_txn"),
   ("txndescription", "description"),
   ("partyname", "party"),
   ("txnmode", "transaction_mode"),
   ("txnnature", "transaction_nature"),
   ("txncategory", "category_name"),
   ("txnsubcategory", "subcategory_name"),
   ("txntag", "tag_name"),
   ("txngroup", "group_name"),
   ("transaction_date", "transaction_date"),
   ("transaction_type", "transaction_type"),
   ("transaction_mode", "transaction_mode"),
   ("transaction_nature", "transaction_nature"),
   ("account_name", "account_name"),
   ("category_name", "category_name"),
   ("description", "description"),
   ("party", "party")]

/-- `normalizeHeader` of the extended dialog (lines 149-152). -/
def normalizeHeader (h : String) : String :=
  let normalized := stripSepLower h
  (HEADER_MAP.lookup normalized).getD normalized

/-- `DEFAULT_ACCOUNT_TYPE` (line 114). -/
def DEFAULT_ACCOUNT_TYPE : String := "Bank Account"

/-- `VALID_TRANSACTION_TYPES` (line 116). -/
def VALID_TRANSACTION_TYPES : List String := ["Debit", "Credit"]

/-- `VALID_MODES` (line 117; this dialog also accepts `ACH`). -/
def VALID_MODES : List String :=
  ["UPI", "NEFT", "IMPS", "RTGS", "Cheque", "BBPS", "EMI", "Cash", "Card", "ACH", "Other"]

/-- `VALID_NATURES` (line 118). -/
def VALID_NATURES : List String :=
  ["Money Transfer", "Auto Sweep", "System Charge", "Charge", "Reversal", "Rewards",
   "Purchase", "Income", "Other"]

/-- Emit the accumulated row if its trimmed content is non-empty
(`if (currentRow.trim()) rows.push(currentRow)`). -/
def pushRow (cur : List Char) : List (List Char) :=
  if cur.any (fun c => !(isJsWs c)) then [cur] else []

/-- The `splitCSVRows` loop (lines 155-186): quotes are kept and toggle the
flag, `\n` / `\r` / `\r\n` outside quotes end a row, whitespace-only rows are
dropped. -/
def splitCSVRowsAux (cur : List Char) (inQ : Bool) : List Char → List (List Char)
  | [] => pushRow cur
  | '"' :: rest => splitCSVRowsAux (cur ++ ['"']) (!inQ) rest
  | '\r' :: '\n' :: rest =>
    if inQ then splitCSVRowsAux (cur ++ ['\r', '\n']) inQ rest
    else pushRow cur ++ splitCSVRowsAux [] inQ rest
  | '\r' :: rest =>
    if inQ then splitCSVRowsAux (cur ++ ['\r']) inQ rest
    else pushRow cur ++ splitCSVRowsAux [] inQ rest
  | '\n' :: rest =>
    if inQ then splitCSVRowsAux (cur ++ ['\n']) inQ rest
    else pushRow cur ++ splitCSVRowsAux [] inQ rest
  | c :: rest => splitCSVRowsAux (cur ++ [c]) inQ rest

/-- `splitCSVRows(content)`. -/
def splitCSVRows (content : List Char) : List (List Char) :=
  splitCSVRowsAux [] false content

/-- The validation block of the extended `parseCSV` (lines 209-235): the
amount is first stripped of commas (`"10,456.00"`). -/
def rowErrors (td am tt tm tn : String) : List String :=
  (if td = "" then ["Date is required"] else []) ++
  (if stripCommas am = "" ∨ jsParseFloat (stripCommas am) = none
   then ["Valid amount is required"] else []) ++
  (if tt = "" ∨ tt ∉ VALID_TRANSACTION_TYPES then ["Type must be Debit or Credit"] else []) ++
  (if tm ≠ "" ∧ tm ∉ VALID_MODES then ["Invalid mode: " ++ tm] else []) ++
  (if tn ≠ "" ∧ tn ∉ VALID_NATURES then ["Invalid nature: " ++ tn] else []) ++
  (if td ≠ "" ∧ ¬ dateFmtOk td then ["Date must be YYYY-MM-DD format"] else [])

/-- `ParsedTransaction` of the extended dialog (lines 55-75). -/
structure ParsedTransaction where
  rowIndex : Nat
  transaction_date : String
  day : Option String
  amount : JSNum
  currency : Option String
  transaction_type : String
  description : Option String
  party : Option String
  bank_remarks : Option String
  account_name : Option String
  category_name : Option String
  subcategory_name : Option String
  tag_name : Option String
  group_name : Option String
  transaction_mode : Option String
  transaction_nature : Option String
  related_txn : Option String
  isValid : Bool
  errors : List String
deriving DecidableEq, Repr

/-- Building one extended `ParsedTransaction` from a row object
(lines 209-257); `rowIdx` is the CSV row number stored in `rowIndex`. -/
def parseRow (rowIdx : Nat) (row : String → String) : ParsedTransaction :=
  let errors := rowErrors (row "transaction_date") (row "amount")
    (row "transaction_type") (row "transaction_mode") (row "transaction_nature")
  { rowIndex := rowIdx
    transaction_date := row "transaction_date"
    day := jsOrUndef (row "day")
    amount := jsOrZero (jsParseFloat (stripCommas (row "amount")))
    currency := jsOrUndef (row "currency")
    transaction_type := if row "transaction_type" = "" then "Debit" else row "transaction_type"
    description := jsOrUndef (row "description")
    party := jsOrUndef (row "party")
    bank_remarks := jsOrUndef (row "bank_remarks")
    account_name := jsOrUndef (row "account_name")
    category_name := jsOrUndef (row "category_name")
    subcategory_name := jsOrUndef (row "subcategory_name")
    tag_name := jsOrUndef (row "tag_name")
    group_name := jsOrUndef (row "group_name")
    transaction_mode := jsOrUndef (row "transaction_mode")
    transaction_nature := jsOrUndef (row "transaction_nature")
    related_txn := jsOrUndef (row "related_txn")
    isValid := errors.isEmpty
    errors := errors }

/-- `parseCSV` of the extended dialog (lines 188-261): quote-aware row split
of the trimmed content, tab/comma delimiter auto-detection on the first row,
normalized headers, one `ParsedTransaction` per data row (`rowIndex` starts
at 2, the header being row 1). -/
def parseCSV (content : String) : List ParsedTransaction :=
  let rows : List String := (splitCSVRows (jsTrim content.data)).map (fun l => (⟨l⟩ : String))
  if rows.length < 2 then []
  else
    let delim := if '\t' ∈ (rows.headD "").data then '\t' else ','
    let headers := (parseCSVLine delim (rows.headD "").data).map (fun h => normalizeHeader (trimS ⟨h⟩))
    (rows.drop 1).enum.map (fun p =>
      let values := (parseCSVLine delim p.2.data).map (fun v => (⟨v⟩ : String))
      parseRow (p.1 + 2) (rowGet (rowAssigns headers values)))

/-- Entity kinds handled by `detectNewEntities` / `createNewEntities`. -/
inductive EType where
  | account
  | category
  | tag
  | grp
deriving DecidableEq, Repr

/-- `NewEntity` (lines 77-81). -/
structure NewEntity where
  name : String
  type : EType
  selected : Bool
deriving DecidableEq, Repr

/-- The CSV name field that feeds entity detection for each entity kind. -/
def fieldOf : EType → ParsedTransaction → Option String
  | EType.account, t => t.account_name
  | EType.category, t => t.category_name
  | EType.tag, t => t.tag_name
  | EType.grp, t => t.group_name

/-- `list.some(e => e.name.toLowerCase() === n.toLowerCase())`. -/
def nameMatches (es : List EntityRef) (n : String) : Bool :=
  es.any (fun e => lowerS e.name == lowerS n)

/-- One field check of `detectNewEntities` (lines 324-371): state is the
entity list built so far plus the `seen` key set (a key is the entity kind
with the lowercased name).  An unseen name that matches no existing entity
is pushed (marked selected) and its key recorded. -/
def fieldStep (ex : List EntityRef) (ty : EType) (v : Option String)
    (st : List NewEntity × List (EType × String)) : List NewEntity × List (EType × String) :=
  match v with
  | none => st
  | some n =>
    if (ty, lowerS n) ∈ st.2 then st
    else if nameMatches ex n then st
    else (st.1 ++ [⟨n, ty, true⟩], st.2 ++ [(ty, lowerS n)])

/-- Processing one transaction inside `detectNewEntities`: the four name
fields are checked in source order. -/
def txnStep (accounts categories tags groups : List EntityRef)
    (st : List NewEntity × List (EType × String)) (t : ParsedTransaction) :
    List NewEntity × List (EType × String) :=
  fieldStep groups EType.grp t.group_name
    (fieldStep tags EType.tag t.tag_name
      (fieldStep categories EType.category t.category_name
        (fieldStep accounts EType.account t.account_name st)))

/-- `detectNewEntities(transactions)` (lines 320-375). -/
def detectNewEntities (accounts categories tags groups : List EntityRef)
    (txns : List ParsedTransaction) : List NewEntity :=
  (txns.foldl (txnStep accounts categories tags groups) ([], [])).1

/-- `t.currency || 'INR'`. -/
def jsOrDefault (o : Option String) (d : String) : String :=
  match o with
  | some s => if s = "" then d else s
  | none => d

/-- One element of `transactionsToInsert` of the extended dialog
(lines 483-519). -/
structure TxnInsert where
  user_id : String
  transaction_date : String
  day : Option String
  amount : JSNum
  currency : String
  transaction_type : String
  description : Option String
  party : Option String
  bank_remarks : Option String
  account_id : Option String
  category_id : Option String
  subcategory_id : Option String
  tag_id : Option String
  group_id : Option String
  transaction_mode : Option String
  transaction_nature : Option String
deriving DecidableEq, Repr

/-- The record built for insertion from one valid transaction (extended
dialog): each id is looked up by case-insensitive name in the corresponding
list, `|| null`. -/
def txnToInsert (userId : String)
    (accounts categories subcategories tags groups : List EntityRef)
    (t : ParsedTransaction) : TxnInsert :=
  { user_id := userId
    transaction_date := t.transaction_date
    day := jsOrNullStr t.day
    amount := t.amount
    currency := jsOrDefault t.currency "INR"
    transaction_type := t.transaction_type
    description := jsOrNullStr t.description
    party := jsOrNullStr t.party
    bank_remarks := jsOrNullStr t.bank_remarks
    account_id := jsOrNullStr ((findByNameCI accounts t.account_name).map EntityRef.id)
    category_id := jsOrNullStr ((findByNameCI categories t.category_name).map EntityRef.id)
    subcategory_id := jsOrNullStr ((findByNameCI subcategories t.subcategory_name).map EntityRef.id)
    tag_id := jsOrNullStr ((findByNameCI tags t.tag_name).map EntityRef.id)
    group_id := jsOrNullStr ((findByNameCI groups t.group_name).map EntityRef.id)
    transaction_mode := jsOrNullStr t.transaction_mode
    transaction_nature := jsOrNullStr t.transaction_nature }

/-- Column names of the object literal inserted into `transactions` by the
extended dialog. -/
def extTxnInsertColumns : List String :=
  ["user_id", "transaction_date", "day", "amount", "currency", "transaction_type",
   "description", "party", "bank_remarks", "account_id", "category_id", "subcategory_id",
   "tag_id", "group_id", "transaction_mode", "transaction_nature"]

/-- The account record created for a selected new account entity
(`createNewEntities`, lines 389-398): default type and a zero balance. -/
structure EntityAccountInsert where
  user_id : String
  name : String
  account_type : String
  balance : JSNum
deriving DecidableEq, Repr

/-- `{ user_id, name, account_type: DEFAULT_ACCOUNT_TYPE, balance: 0 }`. -/
def entityAccountInsert (userId : String) (e : NewEntity) : EntityAccountInsert :=
  { user_id := userId
    name := e.name
    account_type := DEFAULT_ACCOUNT_TYPE
    balance := JSNum.fin 0 }

/-- Column names of the account record inserted by `createNewEntities`. -/
def entityAccountInsertColumns : List String := ["user_id", "name", "account_type", "balance"]

/-- Column names of the category record inserted by `createNewEntities`. -/
def entityCategoryInsertColumns : List String := ["user_id", "name", "is_system"]

/-- Column names of the tag record inserted by `createNewEntities`. -/
def entityTagInsertColumns : List String := ["user_id", "name"]

/-- Column names of the group record inserted by `createNewEntities`. -/
def entityGroupInsertColumns : List String := ["user_id", "name"]

/-- Database tables the extended import writes to. -/
inductive Table where
  | accounts
  | categories
  | tags
  | transactionGroups
  | transactions
deriving DecidableEq, Repr

/-- The sequence of insert calls `createNewEntities` issues for a selected
entity list: one insert per entity kind that has at least one selected entry,
in source order (lines 389-457). -/
def entitySteps (sel : List NewEntity) : List Table :=
  (if (sel.filter (fun e => e.type == EType.account)).isEmpty then [] else [Table.accounts]) ++
  (if (sel.filter (fun e => e.type == EType.category)).isEmpty then [] else [Table.categories]) ++
  (if (sel.filter (fun e => e.type == EType.tag)).isEmpty then [] else [Table.tags]) ++
  (if (sel.filter (fun e => e.type == EType.grp)).isEmpty then [] else [Table.transactionGroups])

/-- Run a sequence of insert calls against a database oracle `ok` (whether
each table's single insert call succeeds).  A supabase insert is atomic: a
failing call writes nothing, and the `throw` on error stops the sequence.
Returns the tables actually written and the overall success flag. -/
def runInserts (ok : Table → Bool) : List Table → List Table × Bool
  | [] => ([], true)
  | t :: ts =>
    if ok t then
      let r := runInserts ok ts
      (t :: r.1, r.2)
    else ([], false)

/-- Write-effect model of `createNewEntities` (lines 383-465): nothing to do
when no entity is selected, otherwise the four kind-wise inserts in order,
stopping at the first error (`catch` reports it and returns `false`). -/
def createNewEntities (ne : List NewEntity) (ok : Table → Bool) : List Table × Bool :=
  runInserts ok (entitySteps (ne.filter (fun e => e.selected)))

/-- Write-effect model of `handleImport` (lines 467-540): bail out with no
write when no row is valid; run `createNewEntities` and stop on its failure;
then issue the single `transactions` insert call.  On any error the function
only reports it — there is no retry and no compensating write. -/
def handleImport (parsed : List ParsedTransaction) (ne : List NewEntity)
    (ok : Table → Bool) : List Table × Bool :=
  if (parsed.filter (fun t => t.isValid)).isEmpty then ([], false)
  else
    let r := createNewEntities ne ok
    if !r.2 then (r.1, false)
    else if ok Table.transactions then (r.1 ++ [Table.transactions], true)
    else (r.1, false)

/-- The existing-entity list consulted for each entity kind. -/
def exOf (accounts categories tags groups : List EntityRef) : EType → List EntityRef
  | EType.account => accounts
  | EType.category => categories
  | EType.tag => tags
  | EType.grp => groups

/-- Invariant of the `detectNewEntities` state: the `seen` keys are exactly
the keys of the entities pushed so far, every pushed entity is selected and
matches no existing entity of its kind, and no two pushed entities share a
kind and a case-insensitive name. -/
def DetectInv (exF : EType → List EntityRef)
    (st : List NewEntity × List (EType × String)) : Prop :=
  (∀ (ty : EType) (k : String),
    (ty, k) ∈ st.2 ↔ ∃ e ∈ st.1, e.type = ty ∧ lowerS e.name = k) ∧
  (∀ e ∈ st.1, e.selected = true ∧ nameMatches (exF e.type) e.name = false) ∧
  st.1.Pairwise (fun a b => ¬(a.type = b.type ∧ lowerS a.name = lowerS b.name))

/-- Every pushed entity's name occurs verbatim in a processed transaction's
field of its kind. -/
def DetectOcc (st : List NewEntity × List (EType × String))
    (P : List ParsedTransaction) : Prop :=
  ∀ e ∈ st.1, ∃ t ∈ P, fieldOf e.type t = some e.name

/-- Every new name occurring in a processed transaction has its key in the
`seen` set. -/
def DetectCompl (exF : EType → List EntityRef)
    (st : List NewEntity × List (EType × String))
    (P : List ParsedTransaction) : Prop :=
  ∀ t ∈ P, ∀ (ty : EType) (n : String), fieldOf ty t = some n →
    nameMatches (exF ty) n = false → (ty, lowerS n) ∈ st.2

end ExtImport

/-! Specification-side definitions: these follow the wording of the spec
sentences, to be compared with the source-derived definitions above. -/

/-- Spec wording for header normalization: "lowercases h, deletes every
whitespace, underscore and hyphen character". -/
def specNormalizeRaw (s : String) : String :=
  ⟨(s.data.map Char.toLower).filter (fun c => !(isJsWs c || c = '_' || c = '-'))⟩

/-- Spec wording for the date format: "four digits, hyphen, two digits,
hyphen, two digits". -/
def specDateShape (s : String) : Prop :=
  ∃ a b c d e f g k : Char,
    s.data = [a, b, c, d, '-', e, f, '-', g, k] ∧
    a.isDigit = true ∧ b.isDigit = true ∧ c.isDigit = true ∧ d.isDigit = true ∧
    e.isDigit = true ∧ f.isDigit = true ∧ g.isDigit = true ∧ k.isDigit = true

/-- Spec wording for id resolution: "the id of the first account in the
provided list whose name equals the row's account_name up to letter case,
and null when the field is empty or no account matches". -/
def firstIdByName (field : Option String) (es : List EntityRef) : Option String :=
  match field with
  | none => none
  | some n =>
    match es.find? (fun e => lowerS e.name == lowerS n) with
    | some e => some e.id
    | none => none

/-- Number of non-empty rows of the trimmed content under `'\n'` line
endings (the row notion of the two simple `parseCSV` functions). -/
def nonEmptyLineCount (content : String) : Nat :=
  ((splitChar '\n' (jsTrim content.data)).filter (fun l => !l.isEmpty)).length

/-- A concrete row object whose date has the wrong separator. -/
def sampleRowBadDate : String → String :=
  fun k => if k = "transaction_date" then "2024/01/01"
    else if k = "amount" then "10" else if k = "transaction_type" then "Debit" else ""

/-- Number of delimiter characters of a line occurring outside double
quotes: the flag is the quote parity accumulated so far, a quote character
toggles it and is never itself counted. -/
def countDelimsOutsideAux (d : Char) : Bool → List Char → Nat
  | _, [] => 0
  | inQ, c :: rest =>
    if c = '"' then countDelimsOutsideAux d (!inQ) rest
    else if c = d && !inQ then 1 + countDelimsOutsideAux d inQ rest
    else countDelimsOutsideAux d inQ rest

/-- Delimiters outside quotes, starting outside quotes. -/
def countDelimsOutside (d : Char) (l : List Char) : Nat :=
  countDelimsOutsideAux d false l

/-- Two concrete accounts whose names differ only by letter case. -/
def sampleAccounts : List EntityRef :=
  [⟨"a1", "HDFC Savings"⟩, ⟨"a2", "hdfc savings"⟩]

/-- A concrete valid parsed transaction naming an account. -/
def sampleExtTxn : ExtImport.ParsedTransaction :=
  { rowIndex := 2
    transaction_date := "2024-01-15"
    day := none
    amount := JSNum.fin 10
    currency := none
    transaction_type := "Debit"
    description := none
    party := none
    bank_remarks := none
    account_name := some "HDFC SAVINGS"
    category_name := none
    subcategory_name := none
    tag_name := none
    group_name := none
    transaction_mode := none
    transaction_nature := none
    related_txn := none
    isValid := true
    errors := [] }

/-- A concrete selected new account entity. -/
def sampleNewAccount : ExtImport.NewEntity :=
  { name := "New Acc", type := ExtImport.EType.account, selected := true }

/-- A database oracle under which only the `transactions` insert fails. -/
def failTxnOracle : ExtImport.Table → Bool :=
  fun t => match t with
  | ExtImport.Table.transactions => false
  | _ => true

/-- A concrete parsed transaction naming an account that does not exist. -/
def sampleDetectTxn : ExtImport.ParsedTransaction :=
  { sampleExtTxn with account_name := some "New Bank" }

end FinanceFriend

/-! Theorems. -/

namespace FinanceFriend

/-- The character data of an appended string is the appended character data. -/
theorem data_append (a b : String) : (a ++ b).data = a.data ++ b.data := by
  cases a; cases b; rfl

/-- Two strings whose character data differ at some position differ. -/
theorem ne_of_data_get? {s t : String} (i : Nat)
    (h : s.data.get? i ≠ t.data.get? i) : s ≠ t := by
  intro e; exact h (by rw [e])

/-- A value looked up in an association list is one of its values. -/
theorem lookup_mem_values {α β : Type} [BEq α] {l : List (α × β)} {k : α} {v : β}
    (h : l.lookup k = some v) : v ∈ l.map Prod.snd := by
  induction l with
  | nil => simp [List.lookup] at h
  | cons p rest ih =>
    rw [List.lookup] at h
    by_cases hk : (k == p.1) = true
    · simp [hk] at h; simp [h.symm]
    · simp [hk] at h; simp [ih h]

/-- C8: in the account CSV import the 'Invalid account type' error branch is
unreachable — every `account_type` value resolves (by `typeMap`, defaulting
to 'Bank Account') to a member of `VALID_ACCOUNT_TYPES`, so the row error
list reduces to the name check alone, a row is valid exactly when its name is
non-empty, and an unrecognized type is silently replaced by 'Bank Account'. -/
theorem c8_invalid_account_type_unreachable :
    (∀ raw : String, AcctImport.resolveAccountType raw ∈ AcctImport.VALID_ACCOUNT_TYPES) ∧
    (∀ name account_type : String,
      AcctImport.rowErrors name account_type =
        if name = "" then ["Account name is required"] else []) ∧
    (∀ (i : Nat) (row : String → String),
      ((AcctImport.parseRow i row).isValid = true ↔ row "name" ≠ "") ∧
      (AcctImport.parseRow i row).account_type = AcctImport.resolveAccountType (row "account_type")) ∧
    (∀ raw : String, AcctImport.typeMap.lookup (stripSepLower raw) = none →
      AcctImport.resolveAccountType raw = "Bank Account") := by
  have hmem : ∀ raw : String,
      AcctImport.resolveAccountType raw ∈ AcctImport.VALID_ACCOUNT_TYPES := by
    intro raw
    unfold AcctImport.resolveAccountType
    by_cases h : raw = ""
    · simp [h]; decide
    · simp only [h, if_false]
      cases hl : AcctImport.typeMap.lookup (stripSepLower raw) with
      | none => simp; decide
      | some v =>
        simp only [Option.getD_some]
        have hv := lookup_mem_values hl
        have hall : ∀ w ∈ AcctImport.typeMap.map Prod.snd,
            w ∈ AcctImport.VALID_ACCOUNT_TYPES := by decide
        exact hall v hv
  refine ⟨hmem, ?_, ?_, ?_⟩
  · intro name account_type
    unfold AcctImport.rowErrors
    have : ¬ (account_type ≠ "" ∧
        AcctImport.resolveAccountType account_type ∉ AcctImport.VALID_ACCOUNT_TYPES) := by
      intro ⟨_, hnot⟩; exact hnot (hmem account_type)
    rw [if_neg this]
    by_cases h : name = "" <;> simp [h]
  · intro i row
    constructor
    · show (AcctImport.parseRow i row).isValid = true ↔ row "name" ≠ ""
      show (AcctImport.rowErrors (row "name") (row "account_type")).isEmpty = true ↔ _
      unfold AcctImport.rowErrors
      have : ¬ (row "account_type" ≠ "" ∧
          AcctImport.resolveAccountType (row "account_type") ∉ AcctImport.VALID_ACCOUNT_TYPES) := by
        intro ⟨_, hnot⟩; exact hnot (hmem (row "account_type"))
      rw [if_neg this]
      by_cases h : row "name" = "" <;> simp [h]
    · rfl
  · intro raw hnone
    unfold AcctImport.resolveAccountType
    by_cases h : raw = "" <;> simp [h, hnone]

/-- C8 witness: a concrete unrecognized account type resolves to
'Bank Account'. -/
theorem c8_invalid_account_type_unreachable_witness :
    AcctImport.typeMap.lookup (stripSepLower "Spaceship") = none ∧
    AcctImport.resolveAccountType "Spaceship" = "Bank Account" :=
  ⟨by decide, c8_invalid_account_type_unreachable.2.2.2 "Spaceship" (by decide)⟩

/-- C2 as stated is false: the application's own insert records do carry
balance columns: `opening_balance`/`closing_balance` in the account CSV
importer, `balance` in `createNewEntities`. -/
theorem c2_counterexample :
    ¬ (∀ cols ∈ [AcctImport.accountInsertColumns, ExtImport.entityAccountInsertColumns,
                 TxnImport.txnInsertColumns, ExtImport.extTxnInsertColumns],
        ∀ b ∈ ["balance", "opening_balance", "closing_balance"], (b : String) ∉ cols) := by
  intro h
  exact h AcctImport.accountInsertColumns (by decide) "closing_balance" (by decide) (by decide)

/-- C2 amended: the transaction-row inserts of both dialogs carry no balance
column (transaction-driven balance maintenance being left to the database
trigger), but account creation does write balance values from application
code — the account CSV import sets `closing_balance` equal to the parsed
`opening_balance`, and `createNewEntities` inserts new accounts with
balance 0. -/
theorem c2_app_balance_writes :
    ("balance" ∉ TxnImport.txnInsertColumns ∧
     "opening_balance" ∉ TxnImport.txnInsertColumns ∧
     "closing_balance" ∉ TxnImport.txnInsertColumns ∧
     "balance" ∉ ExtImport.extTxnInsertColumns ∧
     "opening_balance" ∉ ExtImport.extTxnInsertColumns ∧
     "closing_balance" ∉ ExtImport.extTxnInsertColumns) ∧
    (∀ (u : String) (a : AcctImport.ParsedAccount),
      (AcctImport.accountToInsert u a).closing_balance = a.opening_balance) ∧
    (∀ (u : String) (e : ExtImport.NewEntity),
      (ExtImport.entityAccountInsert u e).balance = JSNum.fin 0) ∧
    "opening_balance" ∈ AcctImport.accountInsertColumns ∧
    "closing_balance" ∈ AcctImport.accountInsertColumns ∧
    "balance" ∈ ExtImport.entityAccountInsertColumns :=
  ⟨by decide, fun _ _ => rfl, fun _ _ => rfl, by decide, by decide, by decide⟩

/-- C3: both `normalizeHeader` functions lowercase the header, delete every
whitespace, underscore and hyphen character, then replace the result by
`HEADER_MAP`'s canonical name when present and return it unchanged
otherwise; headers with the same normalized form always select the same
column, and the three cited variants agree concretely. -/
theorem c3_header_normalization :
    (∀ h : String, AcctImport.normalizeHeader h =
      (AcctImport.HEADER_MAP.lookup (specNormalizeRaw h)).getD (specNormalizeRaw h)) ∧
    (∀ h : String, ExtImport.normalizeHeader h =
      (ExtImport.HEADER_MAP.lookup (specNormalizeRaw h)).getD (specNormalizeRaw h)) ∧
    (∀ h₁ h₂ : String, specNormalizeRaw h₁ = specNormalizeRaw h₂ →
      AcctImport.normalizeHeader h₁ = AcctImport.normalizeHeader h₂ ∧
      ExtImport.normalizeHeader h₁ = ExtImport.normalizeHeader h₂) ∧
    (AcctImport.normalizeHeader "Account Name" = "name" ∧
     AcctImport.normalizeHeader "account_name" = "name" ∧
     AcctImport.normalizeHeader "ACCOUNT-NAME" = "name") ∧
    (ExtImport.normalizeHeader "Account Name" = ExtImport.normalizeHeader "account_name" ∧
     ExtImport.normalizeHeader "ACCOUNT-NAME" = ExtImport.normalizeHeader "account_name") := by
  have hspec : ∀ h : String, specNormalizeRaw h = stripSepLower h := fun h => rfl
  refine ⟨fun h => by rw [hspec]; rfl, fun h => by rw [hspec]; rfl, ?_, ?_, ?_⟩
  · intro h₁ h₂ he
    have he' : stripSepLower h₁ = stripSepLower h₂ := by rw [← hspec, ← hspec, he]
    constructor
    · show (AcctImport.HEADER_MAP.lookup (stripSepLower h₁)).getD (stripSepLower h₁) = _
      rw [he']; rfl
    · show (ExtImport.HEADER_MAP.lookup (stripSepLower h₁)).getD (stripSepLower h₁) = _
      rw [he']; rfl
  · exact ⟨by decide, by decide, by decide⟩
  · exact ⟨by decide, by decide⟩

/-- C3 witness: the invariance clause applied at two concrete header
variants. -/
theorem c3_header_normalization_witness :
    specNormalizeRaw "Txn Date" = specNormalizeRaw "TXN-DATE" ∧
    ExtImport.normalizeHeader "Txn Date" = ExtImport.normalizeHeader "TXN-DATE" :=
  ⟨by decide, (c3_header_normalization.2.2.1 "Txn Date" "TXN-DATE" (by decide)).2⟩

/-- Indexing an appended string inside its first part. -/
theorem append_getElem?_left {a : String} (b : String) {i : Nat} (h : i < a.data.length) :
    (a ++ b).data[i]? = a.data[i]? := by
  rw [data_append]; exact List.getElem?_append_left h

/-- A string differing from a template at a position inside the template is
not an instance of the template. -/
theorem const_ne_append {s t : String} (b : String) {i : Nat} (hi : i < t.data.length)
    (h : s.data[i]? ≠ t.data[i]?) : s ≠ t ++ b := by
  intro e
  have h0 : s.data[i]? = (t ++ b).data[i]? := by rw [e]
  rw [append_getElem?_left b hi] at h0
  exact h h0

/-- Instances of two templates differing at a position inside both templates
differ. -/
theorem append_ne_append {a c : String} (b d : String) {i : Nat}
    (ha : i < a.data.length) (hc : i < c.data.length)
    (h : a.data[i]? ≠ c.data[i]?) : a ++ b ≠ c ++ d := by
  intro e
  have h0 : (a ++ b).data[i]? = (c ++ d).data[i]? := by rw [e]
  rw [append_getElem?_left b ha, append_getElem?_left d hc] at h0
  exact h h0

/-- Membership in a conditional singleton. -/
theorem mem_ite_singleton {p : Prop} [Decidable p] {a b : String} :
    a ∈ (if p then [b] else ([] : List String)) ↔ p ∧ a = b := by
  by_cases h : p <;> simp [h]

/-- The date regular expression `^\d{4}-\d{2}-\d{2}$` accepts exactly the
strings of the spec's shape: four digits, hyphen, two digits, hyphen, two
digits. -/
theorem dateFmtOk_iff (s : String) : dateFmtOk s = true ↔ specDateShape s := by
  constructor
  · intro h
    unfold dateFmtOk at h
    split at h
    case _ a b c d h1 e f h2 g k heq =>
      simp only [Bool.and_eq_true, decide_eq_true_eq] at h
      obtain ⟨⟨⟨⟨⟨⟨⟨⟨⟨ha, hb⟩, hc⟩, hd⟩, hh1⟩, he⟩, hf⟩, hh2⟩, hg⟩, hk⟩ := h
      exact ⟨a, b, c, d, e, f, g, k, by rw [heq, hh1, hh2], ha, hb, hc, hd, he, hf, hg, hk⟩
    case _ => exact absurd h (by simp)
  · rintro ⟨a, b, c, d, e, f, g, k, hdata, ha, hb, hc, hd, he, hf, hg, hk⟩
    unfold dateFmtOk
    rw [hdata]
    simp [ha, hb, hc, hd, he, hf, hg, hk]

/-- The five distinct validation messages of `rowErrors`, characterized by a
membership equivalence each: every violated check contributes exactly its
own message to the aggregated list (simple transactions dialog). -/
theorem txn_rowErrors_mem (td am tt tm tn : String) :
    ("Date is required" ∈ TxnImport.rowErrors td am tt tm tn ↔ td = "") ∧
    ("Valid amount is required" ∈ TxnImport.rowErrors td am tt tm tn ↔
      (am = "" ∨ jsParseFloat am = none)) ∧
    ("Type must be Debit or Credit" ∈ TxnImport.rowErrors td am tt tm tn ↔
      (tt = "" ∨ tt ∉ TxnImport.VALID_TRANSACTION_TYPES)) ∧
    (("Invalid mode: " ++ tm) ∈ TxnImport.rowErrors td am tt tm tn ↔
      (tm ≠ "" ∧ tm ∉ TxnImport.VALID_MODES)) ∧
    (("Invalid nature: " ++ tn) ∈ TxnImport.rowErrors td am tt tm tn ↔
      (tn ≠ "" ∧ tn ∉ TxnImport.VALID_NATURES)) ∧
    ("Date must be YYYY-MM-DD format" ∈ TxnImport.rowErrors td am tt tm tn ↔
      (td ≠ "" ∧ ¬ dateFmtOk td)) := by
  have hAm : ("Date is required" : String) ≠ "Invalid mode: " ++ tm :=
    const_ne_append tm (i := 0) (by decide) (by decide)
  have hAn : ("Date is required" : String) ≠ "Invalid nature: " ++ tn :=
    const_ne_append tn (i := 0) (by decide) (by decide)
  have hBm : ("Valid amount is required" : String) ≠ "Invalid mode: " ++ tm :=
    const_ne_append tm (i := 0) (by decide) (by decide)
  have hBn : ("Valid amount is required" : String) ≠ "Invalid nature: " ++ tn :=
    const_ne_append tn (i := 0) (by decide) (by decide)
  have hCm : ("Type must be Debit or Credit" : String) ≠ "Invalid mode: " ++ tm :=
    const_ne_append tm (i := 0) (by decide) (by decide)
  have hCn : ("Type must be Debit or Credit" : String) ≠ "Invalid nature: " ++ tn :=
    const_ne_append tn (i := 0) (by decide) (by decide)
  have hFm : ("Date must be YYYY-MM-DD format" : String) ≠ "Invalid mode: " ++ tm :=
    const_ne_append tm (i := 0) (by decide) (by decide)
  have hFn : ("Date must be YYYY-MM-DD format" : String) ≠ "Invalid nature: " ++ tn :=
    const_ne_append tn (i := 0) (by decide) (by decide)
  have hmn : ("Invalid mode: " ++ tm : String) ≠ "Invalid nature: " ++ tn := by
    refine append_ne_append tm tn (i := 8) (by decide) (by decide) (by decide)
  refine ⟨?_, ?_, ?_, ?_, ?_, ?_⟩ <;>
    simp [TxnImport.rowErrors, List.mem_append, mem_ite_singleton,
      hAm, hAn, hBm, hBn, hCm, hCn, hFm, hFn, hmn,
      Ne.symm hAm, Ne.symm hAn, Ne.symm hBm, Ne.symm hBn, Ne.symm hCm, Ne.symm hCn,
      Ne.symm hFm, Ne.symm hFn, Ne.symm hmn]

/-- Membership characterization of the extended dialog's `rowErrors` (the
amount is comma-stripped before the numeric check). -/
theorem ext_rowErrors_mem (td am tt tm tn : String) :
    ("Date is required" ∈ ExtImport.rowErrors td am tt tm tn ↔ td = "") ∧
    ("Valid amount is required" ∈ ExtImport.rowErrors td am tt tm tn ↔
      (stripCommas am = "" ∨ jsParseFloat (stripCommas am) = none)) ∧
    ("Type must be Debit or Credit" ∈ ExtImport.rowErrors td am tt tm tn ↔
      (tt = "" ∨ tt ∉ ExtImport.VALID_TRANSACTION_TYPES)) ∧
    (("Invalid mode: " ++ tm) ∈ ExtImport.rowErrors td am tt tm tn ↔
      (tm ≠ "" ∧ tm ∉ ExtImport.VALID_MODES)) ∧
    (("Invalid nature: " ++ tn) ∈ ExtImport.rowErrors td am tt tm tn ↔
      (tn ≠ "" ∧ tn ∉ ExtImport.VALID_NATURES)) ∧
    ("Date must be YYYY-MM-DD format" ∈ ExtImport.rowErrors td am tt tm tn ↔
      (td ≠ "" ∧ ¬ dateFmtOk td)) := by
  have hAm : ("Date is required" : String) ≠ "Invalid mode: " ++ tm :=
    const_ne_append tm (i := 0) (by decide) (by decide)
  have hAn : ("Date is required" : String) ≠ "Invalid nature: " ++ tn :=
    const_ne_append tn (i := 0) (by decide) (by decide)
  have hBm : ("Valid amount is required" : String) ≠ "Invalid mode: " ++ tm :=
    const_ne_append tm (i := 0) (by decide) (by decide)
  have hBn : ("Valid amount is required" : String) ≠ "Invalid nature: " ++ tn :=
    const_ne_append tn (i := 0) (by decide) (by decide)
  have hCm : ("Type must be Debit or Credit" : String) ≠ "Invalid mode: " ++ tm :=
    const_ne_append tm (i := 0) (by decide) (by decide)
  have hCn : ("Type must be Debit or Credit" : String) ≠ "Invalid nature: " ++ tn :=
    const_ne_append tn (i := 0) (by decide) (by decide)
  have hFm : ("Date must be YYYY-MM-DD format" : String) ≠ "Invalid mode: " ++ tm :=
    const_ne_append tm (i := 0) (by decide) (by decide)
  have hFn : ("Date must be YYYY-MM-DD format" : String) ≠ "Invalid nature: " ++ tn :=
    const_ne_append tn (i := 0) (by decide) (by decide)
  have hmn : ("Invalid mode: " ++ tm : String) ≠ "Invalid nature: " ++ tn := by
    refine append_ne_append tm tn (i := 8) (by decide) (by decide) (by decide)
  refine ⟨?_, ?_, ?_, ?_, ?_, ?_⟩ <;>
    simp [ExtImport.rowErrors, List.mem_append, mem_ite_singleton,
      hAm, hAn, hBm, hBn, hCm, hCn, hFm, hFn, hmn,
      Ne.symm hAm, Ne.symm hAn, Ne.symm hBm, Ne.symm hBn, Ne.symm hCm, Ne.symm hCn,
      Ne.symm hFm, Ne.symm hFn, Ne.symm hmn]

/-- A list with a member is not empty. -/
theorem isEmpty_false_of_mem {α : Type} {a : α} {l : List α} (h : a ∈ l) :
    l.isEmpty = false := by
  cases l with
  | nil => cases h
  | cons b t => rfl

/-- C4: row validation of the transactions CSV aggregates errors — each of
the six checks contributes its own message to the row's error list exactly
when it is violated (independently of the other checks), and a row is marked
valid exactly when the list is empty.  Stated for both transaction import
dialogs. -/
theorem c4_validation_aggregates_errors :
    (∀ td am tt tm tn : String,
      ("Date is required" ∈ TxnImport.rowErrors td am tt tm tn ↔ td = "") ∧
      ("Valid amount is required" ∈ TxnImport.rowErrors td am tt tm tn ↔
        (am = "" ∨ jsParseFloat am = none)) ∧
      ("Type must be Debit or Credit" ∈ TxnImport.rowErrors td am tt tm tn ↔
        (tt = "" ∨ tt ∉ TxnImport.VALID_TRANSACTION_TYPES)) ∧
      (("Invalid mode: " ++ tm) ∈ TxnImport.rowErrors td am tt tm tn ↔
        (tm ≠ "" ∧ tm ∉ TxnImport.VALID_MODES)) ∧
      (("Invalid nature: " ++ tn) ∈ TxnImport.rowErrors td am tt tm tn ↔
        (tn ≠ "" ∧ tn ∉ TxnImport.VALID_NATURES)) ∧
      ("Date must be YYYY-MM-DD format" ∈ TxnImport.rowErrors td am tt tm tn ↔
        (td ≠ "" ∧ ¬ specDateShape td))) ∧
    (∀ td am tt tm tn : String,
      ("Date is required" ∈ ExtImport.rowErrors td am tt tm tn ↔ td = "") ∧
      ("Valid amount is required" ∈ ExtImport.rowErrors td am tt tm tn ↔
        (stripCommas am = "" ∨ jsParseFloat (stripCommas am) = none)) ∧
      ("Type must be Debit or Credit" ∈ ExtImport.rowErrors td am tt tm tn ↔
        (tt = "" ∨ tt ∉ ExtImport.VALID_TRANSACTION_TYPES)) ∧
      (("Invalid mode: " ++ tm) ∈ ExtImport.rowErrors td am tt tm tn ↔
        (tm ≠ "" ∧ tm ∉ ExtImport.VALID_MODES)) ∧
      (("Invalid nature: " ++ tn) ∈ ExtImport.rowErrors td am tt tm tn ↔
        (tn ≠ "" ∧ tn ∉ ExtImport.VALID_NATURES)) ∧
      ("Date must be YYYY-MM-DD format" ∈ ExtImport.rowErrors td am tt tm tn ↔
        (td ≠ "" ∧ ¬ specDateShape td))) ∧
    (∀ row : String → String,
      (TxnImport.parseRow row).errors = TxnImport.rowErrors (row "transaction_date")
        (row "amount") (row "transaction_type") (row "transaction_mode")
        (row "transaction_nature") ∧
      ((TxnImport.parseRow row).isValid = true ↔ (TxnImport.parseRow row).errors = [])) ∧
    (∀ (i : Nat) (row : String → String),
      (ExtImport.parseRow i row).errors = ExtImport.rowErrors (row "transaction_date")
        (row "amount") (row "transaction_type") (row "transaction_mode")
        (row "transaction_nature") ∧
      ((ExtImport.parseRow i row).isValid = true ↔ (ExtImport.parseRow i row).errors = [])) := by
  refine ⟨fun td am tt tm tn => ?_, fun td am tt tm tn => ?_, fun row => ?_, fun i row => ?_⟩
  · obtain ⟨h1, h2, h3, h4, h5, h6⟩ := txn_rowErrors_mem td am tt tm tn
    exact ⟨h1, h2, h3, h4, h5, by rw [h6, dateFmtOk_iff]⟩
  · obtain ⟨h1, h2, h3, h4, h5, h6⟩ := ext_rowErrors_mem td am tt tm tn
    exact ⟨h1, h2, h3, h4, h5, by rw [h6, dateFmtOk_iff]⟩
  · refine ⟨rfl, ?_⟩
    show (TxnImport.rowErrors (row "transaction_date") (row "amount")
      (row "transaction_type") (row "transaction_mode") (row "transaction_nature")).isEmpty
        = true ↔ _
    cases h : TxnImport.rowErrors (row "transaction_date") (row "amount")
        (row "transaction_type") (row "transaction_mode") (row "transaction_nature") with
    | nil => simp [TxnImport.parseRow, h]
    | cons a l => simp [TxnImport.parseRow, h]
  · refine ⟨rfl, ?_⟩
    show (ExtImport.rowErrors (row "transaction_date") (row "amount")
      (row "transaction_type") (row "transaction_mode") (row "transaction_nature")).isEmpty
        = true ↔ _
    cases h : ExtImport.rowErrors (row "transaction_date") (row "amount")
        (row "transaction_type") (row "transaction_mode") (row "transaction_nature") with
    | nil => simp [ExtImport.parseRow, h]
    | cons a l => simp [ExtImport.parseRow, h]

/-- C7: for a non-empty `transaction_date`, the date check accepts exactly
the four-digits/hyphen/two-digits/hyphen/two-digits shape; any other
non-empty value contributes 'Date must be YYYY-MM-DD format' and makes the
row invalid (both transaction import dialogs). -/
theorem c7_date_format_check :
    ∀ (i : Nat) (row : String → String), row "transaction_date" ≠ "" →
      ("Date must be YYYY-MM-DD format" ∈ (TxnImport.parseRow row).errors ↔
        ¬ specDateShape (row "transaction_date")) ∧
      ("Date must be YYYY-MM-DD format" ∈ (ExtImport.parseRow i row).errors ↔
        ¬ specDateShape (row "transaction_date")) ∧
      (¬ specDateShape (row "transaction_date") →
        (TxnImport.parseRow row).isValid = false ∧
        (ExtImport.parseRow i row).isValid = false) := by
  intro i row hne
  have h6t := (txn_rowErrors_mem (row "transaction_date") (row "amount")
    (row "transaction_type") (row "transaction_mode") (row "transaction_nature")).2.2.2.2.2
  have h6e := (ext_rowErrors_mem (row "transaction_date") (row "amount")
    (row "transaction_type") (row "transaction_mode") (row "transaction_nature")).2.2.2.2.2
  refine ⟨?_, ?_, ?_⟩
  · rw [show (TxnImport.parseRow row).errors = TxnImport.rowErrors (row "transaction_date")
      (row "amount") (row "transaction_type") (row "transaction_mode")
      (row "transaction_nature") from rfl, h6t]
    constructor
    · rintro ⟨-, hnot⟩ hs; exact hnot ((dateFmtOk_iff _).mpr hs)
    · intro hns; exact ⟨hne, fun hfk => hns ((dateFmtOk_iff _).mp hfk)⟩
  · rw [show (ExtImport.parseRow i row).errors = ExtImport.rowErrors (row "transaction_date")
      (row "amount") (row "transaction_type") (row "transaction_mode")
      (row "transaction_nature") from rfl, h6e]
    constructor
    · rintro ⟨-, hnot⟩ hs; exact hnot ((dateFmtOk_iff _).mpr hs)
    · intro hns; exact ⟨hne, fun hfk => hns ((dateFmtOk_iff _).mp hfk)⟩
  · intro hns
    have hmem_t : "Date must be YYYY-MM-DD format" ∈ TxnImport.rowErrors
        (row "transaction_date") (row "amount") (row "transaction_type")
        (row "transaction_mode") (row "transaction_nature") :=
      h6t.mpr ⟨hne, fun hfk => hns ((dateFmtOk_iff _).mp hfk)⟩
    have hmem_e : "Date must be YYYY-MM-DD format" ∈ ExtImport.rowErrors
        (row "transaction_date") (row "amount") (row "transaction_type")
        (row "transaction_mode") (row "transaction_nature") :=
      h6e.mpr ⟨hne, fun hfk => hns ((dateFmtOk_iff _).mp hfk)⟩
    exact ⟨isEmpty_false_of_mem hmem_t, isEmpty_false_of_mem hmem_e⟩

/-- `find?` returns the marked element of a decomposition whose front part
contains no match. -/
theorem find?_first_match {p : EntityRef → Bool} :
    ∀ (pre : List EntityRef) (a : EntityRef) (post : List EntityRef),
      p a = true → (∀ b ∈ pre, p b = false) → (pre ++ a :: post).find? p = some a := by
  intro pre
  induction pre with
  | nil => intro a post hpa _; exact List.find?_cons_of_pos _ hpa
  | cons b t ih =>
    intro a post hpa hpre
    rw [List.cons_append, List.find?_cons_of_neg]
    · exact ih a post hpa (fun x hx => hpre x (List.mem_cons_of_mem b hx))
    · simp [hpre b (List.mem_cons_self b t)]

/-- The id stored by the source lookup (`find` by lowercased name, then
`?.id || null`) is the spec's first-match id, whenever the entity ids are
non-empty strings. -/
theorem lookup_id_eq_firstId (es : List EntityRef) (field : Option String)
    (hids : ∀ e ∈ es, e.id ≠ "") :
    jsOrNullStr ((findByNameCI es field).map EntityRef.id) = firstIdByName field es := by
  cases field with
  | none =>
    have hnone : findByNameCI es none = none := by
      apply List.find?_eq_none.mpr
      intro a _
      simp [Option.map]
    simp [hnone, firstIdByName, jsOrNullStr]
  | some n =>
    have hpred : findByNameCI es (some n) = es.find? (fun e => lowerS e.name == lowerS n) := by
      unfold findByNameCI; rfl
    unfold firstIdByName
    rw [hpred]
    cases hf : es.find? (fun e => lowerS e.name == lowerS n) with
    | none => simp [hf, jsOrNullStr]
    | some e =>
      have he := List.mem_of_find?_eq_some hf
      simp [hf, jsOrNullStr, hids e he]

/-- C6: in both transaction import dialogs, each id column of the record
built for insertion is the id of the first entity of the provided list whose
name matches the row's field up to letter case, and null when the field is
empty or nothing matches (assuming, as in the backing database, that entity
ids are non-empty).  The last three clauses characterize `firstIdByName` as
exactly that first-match semantics. -/
theorem c6_first_match_id_resolution :
    (∀ (u : String) (accounts categories subcategories tags groups : List EntityRef)
       (t : ExtImport.ParsedTransaction),
      (∀ e ∈ accounts, e.id ≠ "") → (∀ e ∈ categories, e.id ≠ "") →
      (∀ e ∈ subcategories, e.id ≠ "") → (∀ e ∈ tags, e.id ≠ "") →
      (∀ e ∈ groups, e.id ≠ "") →
      (ExtImport.txnToInsert u accounts categories subcategories tags groups t).account_id
          = firstIdByName t.account_name accounts ∧
      (ExtImport.txnToInsert u accounts categories subcategories tags groups t).category_id
          = firstIdByName t.category_name categories ∧
      (ExtImport.txnToInsert u accounts categories subcategories tags groups t).subcategory_id
          = firstIdByName t.subcategory_name subcategories ∧
      (ExtImport.txnToInsert u accounts categories subcategories tags groups t).tag_id
          = firstIdByName t.tag_name tags ∧
      (ExtImport.txnToInsert u accounts categories subcategories tags groups t).group_id
          = firstIdByName t.group_name groups) ∧
    (∀ (u : String) (accounts categories : List EntityRef) (t : TxnImport.ParsedTransaction),
      (∀ e ∈ accounts, e.id ≠ "") → (∀ e ∈ categories, e.id ≠ "") →
      (TxnImport.txnToInsert u accounts categories t).account_id
          = firstIdByName t.account_name accounts ∧
      (TxnImport.txnToInsert u accounts categories t).category_id
          = firstIdByName t.category_name categories) ∧
    (∀ es : List EntityRef, firstIdByName none es = none) ∧
    (∀ (n : String) (es : List EntityRef), (∀ b ∈ es, lowerS b.name ≠ lowerS n) →
      firstIdByName (some n) es = none) ∧
    (∀ (pre post : List EntityRef) (a : EntityRef) (n : String),
      lowerS a.name = lowerS n → (∀ b ∈ pre, lowerS b.name ≠ lowerS n) →
      firstIdByName (some n) (pre ++ a :: post) = some a.id) := by
  refine ⟨?_, ?_, fun es => rfl, ?_, ?_⟩
  · intro u accounts categories subcategories tags groups t h1 h2 h3 h4 h5
    exact ⟨lookup_id_eq_firstId accounts t.account_name h1,
      lookup_id_eq_firstId categories t.category_name h2,
      lookup_id_eq_firstId subcategories t.subcategory_name h3,
      lookup_id_eq_firstId tags t.tag_name h4,
      lookup_id_eq_firstId groups t.group_name h5⟩
  · intro u accounts categories t h1 h2
    exact ⟨lookup_id_eq_firstId accounts t.account_name h1,
      lookup_id_eq_firstId categories t.category_name h2⟩
  · intro n es h
    have hf : es.find? (fun e => lowerS e.name == lowerS n) = none := by
      apply List.find?_eq_none.mpr
      intro a ha
      simp only [beq_iff_eq]
      exact h a ha
    unfold firstIdByName
    simp [hf]
  · intro pre post a n ha hpre
    have hf := find?_first_match (p := fun e => lowerS e.name == lowerS n) pre a post
      (by simp only [beq_iff_eq]; exact ha)
      (fun b hb => by simp only [beq_eq_false_iff_ne, ne_eq]; exact hpre b hb)
    unfold firstIdByName
    simp [hf]

/-- C6 witness: with two accounts differing only in case, a field in a third
case resolves to the first one's id. -/
theorem c6_first_match_id_resolution_witness :
    (ExtImport.txnToInsert "u" sampleAccounts [] [] [] [] sampleExtTxn).account_id
      = some "a1" := by
  have h := (c6_first_match_id_resolution.1 "u" sampleAccounts [] [] [] [] sampleExtTxn
    (by decide) (by decide) (by decide) (by decide) (by decide)).1
  rw [h]
  decide

/-- `splitChar` never returns the empty list of fields. -/
theorem splitChar_ne_nil (sep : Char) : ∀ l : List Char, splitChar sep l ≠ [] := by
  intro l
  induction l with
  | nil => simp [splitChar]
  | cons c rest ih =>
    unfold splitChar
    by_cases h : c = sep
    · simp [h]
    · simp only [h, if_false]
      cases hs : splitChar sep rest with
      | nil => exact absurd hs ih
      | cons m ms => simp

/-- The field count of the quote-aware splitter is one more than the number
of delimiters at the current quote parity. -/
theorem parseCSVLineAux_length (d : Char) : ∀ (l cur : List Char) (inQ : Bool),
    (parseCSVLineAux d l cur inQ).length = countDelimsOutsideAux d inQ l + 1 := by
  intro l
  induction l with
  | nil => intro cur inQ; rfl
  | cons c rest ih =>
    intro cur inQ
    unfold parseCSVLineAux countDelimsOutsideAux
    by_cases h1 : c = '"'
    · simp [h1, ih]
    · simp only [h1, if_false]
      by_cases h2 : (c = d && !inQ) = true
      · simp [h2, ih]; omega
      · simp [h2, ih]

/-- On a line without quotes, the quote-aware splitter is the naive split
(stated with the accumulated current field prepended to the first result). -/
theorem parseCSVLineAux_no_quote (d : Char) : ∀ (l cur : List Char), '"' ∉ l →
    parseCSVLineAux d l cur false =
      (match splitChar d l with
       | [] => [cur]
       | m :: ms => (cur ++ m) :: ms) := by
  intro l
  induction l with
  | nil => intro cur _; simp [parseCSVLineAux, splitChar]
  | cons c rest ih =>
    intro cur h
    have hc : ¬(c = '"') := fun e => h (by simp [e])
    have hrest : '"' ∉ rest := fun hr => h (List.mem_cons_of_mem c hr)
    unfold parseCSVLineAux splitChar
    by_cases hd : c = d
    · have hcond : (c = d && !false) = true := by simp [hd]
      simp only [hc, if_false, hcond, if_true]
      rw [ih [] hrest]
      cases hs : splitChar d rest with
      | nil => exact absurd hs (splitChar_ne_nil d rest)
      | cons m ms => simp [hd]
    · have hcond : ¬((c = d && !false) = true) := by simp [hd]
      simp only [hc, if_false, hcond]
      rw [ih (cur ++ [c]) hrest]
      cases hs : splitChar d rest with
      | nil => exact absurd hs (splitChar_ne_nil d rest)
      | cons m ms => simp [hd, hs]

/-- Fields produced by the quote-aware splitter never contain a quote
character (given a quote-free accumulator). -/
theorem parseCSVLineAux_no_quote_mem (d : Char) : ∀ (l cur : List Char) (inQ : Bool)
    (f : List Char), '"' ∉ cur → f ∈ parseCSVLineAux d l cur inQ → '"' ∉ f := by
  intro l
  induction l with
  | nil =>
    intro cur inQ f hcur hf
    simp [parseCSVLineAux] at hf
    rw [hf]; exact hcur
  | cons c rest ih =>
    intro cur inQ f hcur hf
    unfold parseCSVLineAux at hf
    by_cases h1 : c = '"'
    · simp only [h1, if_true] at hf
      exact ih cur (!inQ) f hcur hf
    · simp only [h1, if_false] at hf
      by_cases h2 : (c = d && !inQ) = true
      · simp only [h2, if_true] at hf
        rcases List.mem_cons.mp hf with hf | hf
        · rw [hf]; exact hcur
        · exact ih [] inQ f (by simp) hf
      · simp only [h2, if_false] at hf
        refine ih (cur ++ [c]) inQ f ?_ hf
        intro hq
        rcases List.mem_append.mp hq with hq | hq
        · exact hcur hq
        · simp at hq; exact h1 hq.symm

/-- C10: on a quote-free line `parseCSVLine` equals the naive split on the
delimiter; in general it returns one more field than the number of delimiter
characters outside double quotes, and no returned field contains a double
quote. -/
theorem c10_quote_aware_splitter :
    (∀ (d : Char) (line : List Char), '"' ∉ line →
      parseCSVLine d line = splitChar d line) ∧
    (∀ (d : Char) (line : List Char),
      (parseCSVLine d line).length = countDelimsOutside d line + 1) ∧
    (∀ (d : Char) (line f : List Char), f ∈ parseCSVLine d line → '"' ∉ f) := by
  refine ⟨?_, ?_, ?_⟩
  · intro d line h
    unfold parseCSVLine
    rw [parseCSVLineAux_no_quote d line [] h]
    cases hs : splitChar d line with
    | nil => exact absurd hs (splitChar_ne_nil d line)
    | cons m ms => simp
  · intro d line
    exact parseCSVLineAux_length d line [] false
  · intro d line f hf
    exact parseCSVLineAux_no_quote_mem d line [] false f (by simp) hf

/-- C10 witness: the splitter agrees with the naive split on a concrete
quote-free line, and field counting on a quoted line. -/
theorem c10_quote_aware_splitter_witness :
    ('"' ∉ ("a,b,c" : String).data ∧
      parseCSVLine ',' ("a,b,c" : String).data = splitChar ',' ("a,b,c" : String).data) ∧
    (parseCSVLine ',' ("a,\"b,c\",d" : String).data).length
      = countDelimsOutside ',' ("a,\"b,c\",d" : String).data + 1 ∧
    ("b,c" : String).data ∈ parseCSVLine ',' ("a,\"b,c\",d" : String).data ∧
    '"' ∉ ("b,c" : String).data :=
  ⟨⟨by decide, c10_quote_aware_splitter.1 ',' ("a,b,c" : String).data (by decide)⟩,
   c10_quote_aware_splitter.2.1 ',' ("a,\"b,c\",d" : String).data,
   by decide,
   c10_quote_aware_splitter.2.2 ',' ("a,\"b,c\",d" : String).data ("b,c" : String).data
     (by decide)⟩

/-- Tables written by `runInserts` come from the requested step list. -/
theorem runInserts_writes_sub (ok : ExtImport.Table → Bool) :
    ∀ (ts : List ExtImport.Table) (t : ExtImport.Table),
      t ∈ (ExtImport.runInserts ok ts).1 → t ∈ ts := by
  intro ts
  induction ts with
  | nil => intro t h; simp [ExtImport.runInserts] at h
  | cons a l ih =>
    intro t h
    unfold ExtImport.runInserts at h
    cases hok : ok a with
    | true =>
      simp only [hok, if_true] at h
      rcases List.mem_cons.mp h with h | h
      · simp [h]
      · exact List.mem_cons_of_mem a (ih t h)
    | false => simp [hok] at h

/-- `createNewEntities` never issues a `transactions` insert. -/
theorem txn_notin_entitySteps (sel : List ExtImport.NewEntity) :
    ExtImport.Table.transactions ∉ ExtImport.entitySteps sel := by
  unfold ExtImport.entitySteps
  split_ifs <;> decide

/-- C1 as stated is false on the extended import dialog: when a selected new
entity exists, `createNewEntities` commits its insert before the
`transactions` insert, so a failing transactions insert leaves the entity
write in place — the stored state is not unchanged on error. -/
theorem c1_counterexample :
    ExtImport.handleImport [sampleExtTxn] [sampleNewAccount] failTxnOracle
      = ([ExtImport.Table.accounts], false) ∧
    failTxnOracle ExtImport.Table.transactions = false ∧
    ¬ (∀ (parsed : List ExtImport.ParsedTransaction) (ne : List ExtImport.NewEntity)
        (ok : ExtImport.Table → Bool), ok ExtImport.Table.transactions = false →
        (ExtImport.handleImport parsed ne ok).1 = []) := by
  refine ⟨by decide, rfl, ?_⟩
  intro h
  have h0 := h [sampleExtTxn] [sampleNewAccount] failTxnOracle rfl
  have h1 : ExtImport.handleImport [sampleExtTxn] [sampleNewAccount] failTxnOracle
      = ([ExtImport.Table.accounts], false) := by decide
  rw [h1] at h0
  exact absurd h0 (by decide)

/-- C1 amended: committing the parsed transactions is one `transactions`
insert call with no retry and no compensating write — the writes of a run
contain `transactions` at most once (exactly when the run
succeeds), and a failed transactions insert yields a failed run with no
transactions write; the stored state is unchanged on that failure whenever
no new entity was selected, but entity inserts committed beforehand
persist. -/
theorem c1_single_insert_no_recovery :
    (∀ (parsed : List ExtImport.ParsedTransaction) (ne : List ExtImport.NewEntity)
       (ok : ExtImport.Table → Bool),
      (ExtImport.handleImport parsed ne ok).1.count ExtImport.Table.transactions
        = (if (ExtImport.handleImport parsed ne ok).2 then 1 else 0)) ∧
    (∀ (parsed : List ExtImport.ParsedTransaction) (ne : List ExtImport.NewEntity)
       (ok : ExtImport.Table → Bool), ok ExtImport.Table.transactions = false →
      ExtImport.Table.transactions ∉ (ExtImport.handleImport parsed ne ok).1 ∧
      (ExtImport.handleImport parsed ne ok).2 = false) ∧
    (∀ (parsed : List ExtImport.ParsedTransaction) (ne : List ExtImport.NewEntity)
       (ok : ExtImport.Table → Bool), ne.filter (fun e => e.selected) = [] →
      ok ExtImport.Table.transactions = false →
      ExtImport.handleImport parsed ne ok = ([], false)) := by
  have hnotin : ∀ (ne : List ExtImport.NewEntity) (ok : ExtImport.Table → Bool),
      ExtImport.Table.transactions ∉ (ExtImport.createNewEntities ne ok).1 := by
    intro ne ok hmem
    exact txn_notin_entitySteps _ (runInserts_writes_sub ok _ _ hmem)
  refine ⟨?_, ?_, ?_⟩
  · intro parsed ne ok
    unfold ExtImport.handleImport
    cases hvalid : (parsed.filter (fun t => t.isValid)).isEmpty with
    | true => simp [hvalid]
    | false =>
      cases hr : (ExtImport.createNewEntities ne ok).2 with
      | false => simp [hvalid, hr, List.count_eq_zero.mpr (hnotin ne ok)]
      | true =>
        cases hok : ok ExtImport.Table.transactions with
        | true =>
          simp [hvalid, hr, hok, List.count_append,
            List.count_eq_zero.mpr (hnotin ne ok)]
        | false => simp [hvalid, hr, hok, List.count_eq_zero.mpr (hnotin ne ok)]
  · intro parsed ne ok hok
    unfold ExtImport.handleImport
    cases hvalid : (parsed.filter (fun t => t.isValid)).isEmpty with
    | true => simp [hvalid]
    | false =>
      cases hr : (ExtImport.createNewEntities ne ok).2 with
      | false => simp [hvalid, hr, hnotin ne ok]
      | true => simp [hvalid, hr, hok, hnotin ne ok]
  · intro parsed ne ok hsel hok
    unfold ExtImport.handleImport
    have hcr : ExtImport.createNewEntities ne ok = ([], true) := by
      unfold ExtImport.createNewEntities
      rw [hsel]
      rfl
    cases hvalid : (parsed.filter (fun t => t.isValid)).isEmpty with
    | true => simp [hvalid]
    | false => simp [hvalid, hcr, hok]

/-- C1 amended witness: with no selected new entity, a failing transactions
insert leaves the state untouched. -/
theorem c1_single_insert_no_recovery_witness :
    ([] : List ExtImport.NewEntity).filter (fun e => e.selected) = [] ∧
    failTxnOracle ExtImport.Table.transactions = false ∧
    ExtImport.handleImport [sampleExtTxn] [] failTxnOracle = ([], false) :=
  ⟨rfl, rfl, c1_single_insert_no_recovery.2.2 [sampleExtTxn] [] failTxnOracle rfl rfl⟩

/-- `fieldStep` either leaves the state unchanged (seen key, existing match,
or absent field) or pushes the entity and its key. -/
theorem fieldStep_spec (ex : List EntityRef) (ty : ExtImport.EType) (v : Option String)
    (st : List ExtImport.NewEntity × List (ExtImport.EType × String)) :
    (ExtImport.fieldStep ex ty v st = st ∧
      (v = none ∨ (∃ n, v = some n ∧
        ((ty, lowerS n) ∈ st.2 ∨ ExtImport.nameMatches ex n = true)))) ∨
    (∃ n, v = some n ∧ (ty, lowerS n) ∉ st.2 ∧ ExtImport.nameMatches ex n = false ∧
      ExtImport.fieldStep ex ty v st
        = (st.1 ++ [⟨n, ty, true⟩], st.2 ++ [(ty, lowerS n)])) := by
  cases v with
  | none => left; exact ⟨rfl, Or.inl rfl⟩
  | some n =>
    by_cases h1 : (ty, lowerS n) ∈ st.2
    · left
      refine ⟨?_, Or.inr ⟨n, rfl, Or.inl h1⟩⟩
      unfold ExtImport.fieldStep
      simp [h1]
    · cases h2 : ExtImport.nameMatches ex n with
      | true =>
        left
        refine ⟨?_, Or.inr ⟨n, rfl, Or.inr h2⟩⟩
        unfold ExtImport.fieldStep
        simp [h1, h2]
      | false =>
        right
        refine ⟨n, rfl, h1, h2, ?_⟩
        unfold ExtImport.fieldStep
        simp [h1, h2]

/-- `fieldStep` only grows the seen set. -/
theorem fieldStep_seen_mono (ex : List EntityRef) (ty : ExtImport.EType) (v : Option String)
    (st : List ExtImport.NewEntity × List (ExtImport.EType × String)) :
    ∀ p ∈ st.2, p ∈ (ExtImport.fieldStep ex ty v st).2 := by
  intro p hp
  rcases fieldStep_spec ex ty v st with ⟨heq, -⟩ | ⟨n, -, -, -, heq⟩
  · rw [heq]; exact hp
  · rw [heq]; exact List.mem_append_left _ hp

/-- `fieldStep` preserves the detection invariant when called on the
existing-entity list of its own kind. -/
theorem fieldStep_inv (exF : ExtImport.EType → List EntityRef) (ty : ExtImport.EType)
    (v : Option String) (st : List ExtImport.NewEntity × List (ExtImport.EType × String))
    (h : ExtImport.DetectInv exF st) :
    ExtImport.DetectInv exF (ExtImport.fieldStep (exF ty) ty v st) := by
  obtain ⟨hA, hC, hB⟩ := h
  rcases fieldStep_spec (exF ty) ty v st with ⟨heq, -⟩ | ⟨n, -, hseen, hmatch, heq⟩
  · rw [heq]; exact ⟨hA, hC, hB⟩
  · rw [heq]
    refine ⟨?_, ?_, ?_⟩
    · intro ty' k'
      constructor
      · intro hk
        rcases List.mem_append.mp hk with hk | hk
        · obtain ⟨e, he, hety, hek⟩ := (hA ty' k').mp hk
          exact ⟨e, List.mem_append_left _ he, hety, hek⟩
        · simp only [List.mem_singleton] at hk
          obtain ⟨hty', hk'⟩ := Prod.mk.injEq .. ▸ hk
          refine ⟨⟨n, ty, true⟩, List.mem_append_right _ (by simp), ?_, ?_⟩
          · simp [hty']
          · simp [hk']
      · rintro ⟨e, he, hety, hek⟩
        rcases List.mem_append.mp he with he | he
        · exact List.mem_append_left _ ((hA ty' k').mpr ⟨e, he, hety, hek⟩)
        · simp only [List.mem_singleton] at he
          subst he
          simp only at hety hek
          apply List.mem_append_right
          simp [← hety, ← hek]
    · intro e he
      rcases List.mem_append.mp he with he | he
      · exact hC e he
      · simp only [List.mem_singleton] at he
        subst he
        exact ⟨rfl, hmatch⟩
    · rw [List.pairwise_append]
      refine ⟨hB, List.pairwise_singleton _ _, ?_⟩
      intro a ha b hb
      simp only [List.mem_singleton] at hb
      subst hb
      rintro ⟨hty, hname⟩
      simp only at hty hname
      exact hseen ((hA ty (lowerS n)).mpr ⟨a, ha, hty, hname⟩)

/-- `fieldStep` preserves the occurrence property when its field value comes
from a processed transaction. -/
theorem fieldStep_occ (ex : List EntityRef) (ty : ExtImport.EType) (v : Option String)
    (st : List ExtImport.NewEntity × List (ExtImport.EType × String))
    (P : List ExtImport.ParsedTransaction)
    (hocc : ExtImport.DetectOcc st P)
    (hv : ∀ n, v = some n → ∃ t ∈ P, ExtImport.fieldOf ty t = some n) :
    ExtImport.DetectOcc (ExtImport.fieldStep ex ty v st) P := by
  rcases fieldStep_spec ex ty v st with ⟨heq, -⟩ | ⟨n, hvn, -, -, heq⟩
  · rw [heq]; exact hocc
  · rw [heq]
    intro e he
    rcases List.mem_append.mp he with he | he
    · exact hocc e he
    · simp only [List.mem_singleton] at he
      subst he
      exact hv n hvn

/-- After a `fieldStep` on a genuinely new name, that name's key is seen. -/
theorem fieldStep_key (ex : List EntityRef) (ty : ExtImport.EType)
    (st : List ExtImport.NewEntity × List (ExtImport.EType × String))
    (n : String) (hmatch : ExtImport.nameMatches ex n = false) :
    (ty, lowerS n) ∈ (ExtImport.fieldStep ex ty (some n) st).2 := by
  rcases fieldStep_spec ex ty (some n) st with ⟨heq, hcase⟩ | ⟨n', hvn, -, -, heq⟩
  · rw [heq]
    rcases hcase with hnone | ⟨n', hvn, hseen | hex⟩
    · cases hnone
    · have hn : n = n' := Option.some.inj hvn
      rw [← hn] at hseen
      exact hseen
    · have hn : n = n' := Option.some.inj hvn
      rw [← hn] at hex
      rw [hex] at hmatch
      cases hmatch
  · have hn : n = n' := Option.some.inj hvn
    subst hn
    rw [heq]
    exact List.mem_append_right _ (by simp)

/-- `txnStep` preserves the detection invariant. -/
theorem txnStep_inv (acc cat tg gr : List EntityRef)
    (st : List ExtImport.NewEntity × List (ExtImport.EType × String))
    (t : ExtImport.ParsedTransaction)
    (h : ExtImport.DetectInv (ExtImport.exOf acc cat tg gr) st) :
    ExtImport.DetectInv (ExtImport.exOf acc cat tg gr)
      (ExtImport.txnStep acc cat tg gr st t) := by
  have h1 := fieldStep_inv (ExtImport.exOf acc cat tg gr) ExtImport.EType.account
    t.account_name st h
  have h2 := fieldStep_inv (ExtImport.exOf acc cat tg gr) ExtImport.EType.category
    t.category_name _ h1
  have h3 := fieldStep_inv (ExtImport.exOf acc cat tg gr) ExtImport.EType.tag
    t.tag_name _ h2
  exact fieldStep_inv (ExtImport.exOf acc cat tg gr) ExtImport.EType.grp
    t.group_name _ h3

/-- `txnStep` preserves the occurrence property for a processed list
containing the stepped transaction. -/
theorem txnStep_occ (acc cat tg gr : List EntityRef)
    (st : List ExtImport.NewEntity × List (ExtImport.EType × String))
    (t : ExtImport.ParsedTransaction) (P : List ExtImport.ParsedTransaction)
    (hocc : ExtImport.DetectOcc st P) (ht : t ∈ P) :
    ExtImport.DetectOcc (ExtImport.txnStep acc cat tg gr st t) P := by
  have h1 := fieldStep_occ acc ExtImport.EType.account t.account_name st P hocc
    (fun n hn => ⟨t, ht, hn⟩)
  have h2 := fieldStep_occ cat ExtImport.EType.category t.category_name _ P h1
    (fun n hn => ⟨t, ht, hn⟩)
  have h3 := fieldStep_occ tg ExtImport.EType.tag t.tag_name _ P h2
    (fun n hn => ⟨t, ht, hn⟩)
  exact fieldStep_occ gr ExtImport.EType.grp t.group_name _ P h3
    (fun n hn => ⟨t, ht, hn⟩)

/-- `txnStep` only grows the seen set. -/
theorem txnStep_seen_mono (acc cat tg gr : List EntityRef)
    (st : List ExtImport.NewEntity × List (ExtImport.EType × String))
    (t : ExtImport.ParsedTransaction) :
    ∀ p ∈ st.2, p ∈ (ExtImport.txnStep acc cat tg gr st t).2 := by
  intro p hp
  exact fieldStep_seen_mono gr ExtImport.EType.grp t.group_name _ _
    (fieldStep_seen_mono tg ExtImport.EType.tag t.tag_name _ _
      (fieldStep_seen_mono cat ExtImport.EType.category t.category_name _ _
        (fieldStep_seen_mono acc ExtImport.EType.account t.account_name _ _ hp)))

/-- After `txnStep`, every new name of the stepped transaction is seen, and
previously seen keys are kept. -/
theorem txnStep_compl (acc cat tg gr : List EntityRef)
    (st : List ExtImport.NewEntity × List (ExtImport.EType × String))
    (t : ExtImport.ParsedTransaction) (P : List ExtImport.ParsedTransaction)
    (hcompl : ExtImport.DetectCompl (ExtImport.exOf acc cat tg gr) st P) :
    ExtImport.DetectCompl (ExtImport.exOf acc cat tg gr)
      (ExtImport.txnStep acc cat tg gr st t) (P ++ [t]) := by
  intro t' ht' ty n hfield hmatch
  rcases List.mem_append.mp ht' with ht' | ht'
  · exact txnStep_seen_mono acc cat tg gr st t _ (hcompl t' ht' ty n hfield hmatch)
  · simp only [List.mem_singleton] at ht'
    rw [ht'] at hfield
    cases ty with
    | account =>
      have hfield' : t.account_name = some n := hfield
      unfold ExtImport.txnStep
      rw [hfield']
      exact fieldStep_seen_mono gr ExtImport.EType.grp t.group_name _ _
        (fieldStep_seen_mono tg ExtImport.EType.tag t.tag_name _ _
          (fieldStep_seen_mono cat ExtImport.EType.category t.category_name _ _
            (fieldStep_key acc ExtImport.EType.account st n hmatch)))
    | category =>
      have hfield' : t.category_name = some n := hfield
      unfold ExtImport.txnStep
      rw [hfield']
      exact fieldStep_seen_mono gr ExtImport.EType.grp t.group_name _ _
        (fieldStep_seen_mono tg ExtImport.EType.tag t.tag_name _ _
          (fieldStep_key cat ExtImport.EType.category _ n hmatch))
    | tag =>
      have hfield' : t.tag_name = some n := hfield
      unfold ExtImport.txnStep
      rw [hfield']
      exact fieldStep_seen_mono gr ExtImport.EType.grp t.group_name _ _
        (fieldStep_key tg ExtImport.EType.tag _ n hmatch)
    | grp =>
      have hfield' : t.group_name = some n := hfield
      unfold ExtImport.txnStep
      rw [hfield']
      exact fieldStep_key gr ExtImport.EType.grp _ n hmatch

/-- The occurrence property is stable under growing the processed list. -/
theorem detectOcc_append (st : List ExtImport.NewEntity × List (ExtImport.EType × String))
    (P ts : List ExtImport.ParsedTransaction) (h : ExtImport.DetectOcc st P) :
    ExtImport.DetectOcc st (P ++ ts) := by
  intro e he
  obtain ⟨t, ht, hf⟩ := h e he
  exact ⟨t, List.mem_append_left _ ht, hf⟩

/-- Folding `txnStep` over a transaction list preserves the invariant and
establishes occurrence and completeness for the processed transactions. -/
theorem detect_fold (acc cat tg gr : List EntityRef) :
    ∀ (txns : List ExtImport.ParsedTransaction)
      (st : List ExtImport.NewEntity × List (ExtImport.EType × String))
      (P : List ExtImport.ParsedTransaction),
      ExtImport.DetectInv (ExtImport.exOf acc cat tg gr) st →
      ExtImport.DetectOcc st P →
      ExtImport.DetectCompl (ExtImport.exOf acc cat tg gr) st P →
      ExtImport.DetectInv (ExtImport.exOf acc cat tg gr)
        (txns.foldl (ExtImport.txnStep acc cat tg gr) st) ∧
      ExtImport.DetectOcc (txns.foldl (ExtImport.txnStep acc cat tg gr) st) (P ++ txns) ∧
      ExtImport.DetectCompl (ExtImport.exOf acc cat tg gr)
        (txns.foldl (ExtImport.txnStep acc cat tg gr) st) (P ++ txns) := by
  intro txns
  induction txns with
  | nil => intro st P h1 h2 h3; simpa using ⟨h1, h2, h3⟩
  | cons t rest ih =>
    intro st P h1 h2 h3
    have h1' := txnStep_inv acc cat tg gr st t h1
    have h2' := txnStep_occ acc cat tg gr st t (P ++ [t])
      (detectOcc_append st P [t] h2) (by simp)
    have h3' := txnStep_compl acc cat tg gr st t P h3
    have hrec := ih (ExtImport.txnStep acc cat tg gr st t) (P ++ [t]) h1' h2' h3'
    simpa [List.append_assoc] using hrec

/-- C5: `detectNewEntities` returns only selected entries whose names occur
verbatim in the rows' fields and match no existing entity of their kind
case-insensitively; no two entries share a kind and a case-insensitive name
(so a repeated name yields one entry); and every new name occurring in some
row yields an entry of its kind. -/
theorem c5_detect_new_entities :
    ∀ (accounts categories tags groups : List EntityRef)
      (txns : List ExtImport.ParsedTransaction),
      (∀ e ∈ ExtImport.detectNewEntities accounts categories tags groups txns,
        e.selected = true ∧
        ExtImport.nameMatches (ExtImport.exOf accounts categories tags groups e.type) e.name
          = false ∧
        ∃ t ∈ txns, ExtImport.fieldOf e.type t = some e.name) ∧
      (ExtImport.detectNewEntities accounts categories tags groups txns).Pairwise
        (fun a b => ¬(a.type = b.type ∧ lowerS a.name = lowerS b.name)) ∧
      (∀ t ∈ txns, ∀ (ty : ExtImport.EType) (n : String),
        ExtImport.fieldOf ty t = some n →
        ExtImport.nameMatches (ExtImport.exOf accounts categories tags groups ty) n = false →
        ∃ e ∈ ExtImport.detectNewEntities accounts categories tags groups txns,
          e.type = ty ∧ lowerS e.name = lowerS n) := by
  intro acc cat tg gr txns
  have base1 : ExtImport.DetectInv (ExtImport.exOf acc cat tg gr) ([], []) :=
    ⟨by simp, by simp, List.Pairwise.nil⟩
  have base2 : ExtImport.DetectOcc ([], []) [] := by intro e he; simp at he
  have base3 : ExtImport.DetectCompl (ExtImport.exOf acc cat tg gr) ([], []) [] := by
    intro t ht; simp at ht
  obtain ⟨hInv, hOcc, hCompl⟩ := detect_fold acc cat tg gr txns ([], []) [] base1 base2 base3
  obtain ⟨hA, hC, hB⟩ := hInv
  refine ⟨?_, hB, ?_⟩
  · intro e he
    obtain ⟨hsel, hmatch⟩ := hC e he
    obtain ⟨t, ht, hf⟩ := hOcc e he
    exact ⟨hsel, hmatch, t, by simpa using ht, hf⟩
  · intro t ht ty n hf hm
    have hk := hCompl t (by simpa using ht) ty n hf hm
    obtain ⟨e, he, hty, hname⟩ := (hA ty (lowerS n)).mp hk
    exact ⟨e, he, hty, hname⟩

/-- C5 witness: a new account name in one row yields an account entry with
the same case-insensitive name. -/
theorem c5_detect_new_entities_witness :
    ExtImport.fieldOf ExtImport.EType.account sampleDetectTxn = some "New Bank" ∧
    ExtImport.nameMatches (ExtImport.exOf sampleAccounts [] [] [] ExtImport.EType.account)
      "New Bank" = false ∧
    ∃ e ∈ ExtImport.detectNewEntities sampleAccounts [] [] [] [sampleDetectTxn],
      e.type = ExtImport.EType.account ∧ lowerS e.name = lowerS "New Bank" := by
  refine ⟨rfl, by decide, ?_⟩
  exact (c5_detect_new_entities sampleAccounts [] [] [] [sampleDetectTxn]).2.2
    sampleDetectTxn (by simp) ExtImport.EType.account "New Bank" rfl (by decide)

/-- `splitChar` yields one more field than the number of separators. -/
theorem splitChar_length (sep : Char) : ∀ l : List Char,
    (splitChar sep l).length = l.count sep + 1 := by
  intro l
  induction l with
  | nil => rfl
  | cons c rest ih =>
    unfold splitChar
    by_cases h : c = sep
    · simp [h, ih, List.count_cons]
    · simp only [h, if_false]
      cases hs : splitChar sep rest with
      | nil => exact absurd hs (splitChar_ne_nil sep rest)
      | cons m ms =>
        rw [hs] at ih
        simp only [List.length_cons] at ih ⊢
        simp [List.count_cons, h, ← ih]

/-- The head surviving `dropWhile` fails the predicate. -/
theorem dropWhile_head_not (p : Char → Bool) : ∀ (l : List Char) (c : Char),
    (l.dropWhile p).head? = some c → p c = false := by
  intro l
  induction l with
  | nil => intro c h; cases h
  | cons a rest ih =>
    intro c h
    rw [List.dropWhile_cons] at h
    by_cases hp : p a = true
    · rw [if_pos hp] at h
      exact ih c h
    · rw [if_neg hp] at h
      simp only [List.head?_cons, Option.some.injEq] at h
      rw [← h]
      cases hpa : p a with
      | false => rfl
      | true => exact absurd hpa hp

/-- `trimEndJs` can only expose the original head. -/
theorem trimEndJs_head : ∀ (l : List Char) (c : Char),
    (trimEndJs l).head? = some c → l.head? = some c := by
  intro l
  induction l with
  | nil => intro c h; cases h
  | cons a rest _ =>
    intro c h
    unfold trimEndJs at h
    cases hr : trimEndJs rest with
    | nil =>
      rw [hr] at h
      by_cases hw : isJsWs a = true
      · simp [hw] at h
      · simp only [hw, Bool.false_eq_true, if_false] at h
        simp only [List.head?_cons, Option.some.injEq] at h ⊢
        exact h
    | cons b r =>
      rw [hr] at h
      simp only [List.head?_cons, Option.some.injEq] at h ⊢
      exact h

/-- The last character after `trimEndJs` is not whitespace. -/
theorem trimEndJs_last_not_ws : ∀ (l : List Char) (c : Char),
    (trimEndJs l).getLast? = some c → isJsWs c = false := by
  intro l
  induction l with
  | nil => intro c h; cases h
  | cons a rest ih =>
    intro c h
    unfold trimEndJs at h
    cases hr : trimEndJs rest with
    | nil =>
      rw [hr] at h
      by_cases hw : isJsWs a = true
      · simp [hw] at h
      · simp only [hw, Bool.false_eq_true, if_false] at h
        simp only [List.getLast?_singleton, Option.some.injEq] at h
        rw [← h]
        simpa using hw
    | cons b r =>
      rw [hr] at h
      rw [List.getLast?_cons_cons] at h
      exact ih c (hr ▸ h)

/-- The head of a trimmed string is not whitespace. -/
theorem jsTrim_head_not_ws (l : List Char) (c : Char)
    (h : (jsTrim l).head? = some c) : isJsWs c = false := by
  unfold jsTrim at h
  exact dropWhile_head_not isJsWs l c (trimEndJs_head (trimStartJs l) c h)

/-- The last character of a trimmed string is not whitespace. -/
theorem jsTrim_last_not_ws (l : List Char) (c : Char)
    (h : (jsTrim l).getLast? = some c) : isJsWs c = false :=
  trimEndJs_last_not_ws (trimStartJs l) c h

/-- A head character that is not the separator lands in the first field. -/
theorem splitChar_head_mem (sep : Char) (l : List Char) (c : Char)
    (hc : l.head? = some c) (hne : c ≠ sep) :
    ∃ m ms, splitChar sep l = m :: ms ∧ c ∈ m := by
  cases l with
  | nil => cases hc
  | cons a rest =>
    simp only [List.head?_cons, Option.some.injEq] at hc
    subst hc
    cases hs : splitChar sep rest with
    | nil => exact absurd hs (splitChar_ne_nil sep rest)
    | cons m ms =>
      refine ⟨a :: m, ms, ?_, by simp⟩
      unfold splitChar
      simp [hne, hs]

/-- An element named by `getLast?` is a member. -/
theorem mem_of_getLastQ {α : Type} : ∀ {l : List α} {a : α}, l.getLast? = some a → a ∈ l := by
  intro l
  induction l with
  | nil => intro a h; cases h
  | cons b t ih =>
    intro a h
    cases t with
    | nil =>
      simp only [List.getLast?_singleton, Option.some.injEq] at h
      simp [h]
    | cons c r =>
      rw [List.getLast?_cons_cons] at h
      exact List.mem_cons_of_mem b (ih h)

/-- A last character that is not the separator lands in the last field. -/
theorem splitChar_last_mem (sep : Char) : ∀ (l : List Char) (c : Char),
    l.getLast? = some c → c ≠ sep →
    ∃ m, (splitChar sep l).getLast? = some m ∧ c ∈ m := by
  intro l
  induction l with
  | nil => intro c h; cases h
  | cons a rest ih =>
    intro c hc hne
    cases rest with
    | nil =>
      simp only [List.getLast?_singleton, Option.some.injEq] at hc
      subst hc
      refine ⟨[a], ?_, by simp⟩
      simp [splitChar, hne]
    | cons b r =>
      rw [List.getLast?_cons_cons] at hc
      obtain ⟨m, hm, hcm⟩ := ih c hc hne
      unfold splitChar
      by_cases ha : a = sep
      · simp only [ha, if_true]
        refine ⟨m, ?_, hcm⟩
        cases hs : splitChar sep (b :: r) with
        | nil => exact absurd hs (splitChar_ne_nil sep (b :: r))
        | cons l0 ls =>
          rw [hs] at hm
          rw [List.getLast?_cons_cons]
          exact hm
      · simp only [ha, if_false]
        cases hs : splitChar sep (b :: r) with
        | nil => exact absurd hs (splitChar_ne_nil sep (b :: r))
        | cons l0 ls =>
          rw [hs] at hm
          cases ls with
          | nil =>
            simp only [List.getLast?_singleton, Option.some.injEq] at hm
            subst hm
            exact ⟨a :: l0, by simp, List.mem_cons_of_mem a hcm⟩
          | cons l1 ls' =>
            rw [List.getLast?_cons_cons] at hm
            refine ⟨m, ?_, hcm⟩
            rw [List.getLast?_cons_cons]
            exact hm

/-- Two or more lines of a trimmed string give two or more non-empty lines:
the first and last lines each contain a non-whitespace character. -/
theorem two_nonempty_of_two_lines (content : String)
    (h : 2 ≤ (splitChar '\n' (jsTrim content.data)).length) :
    2 ≤ nonEmptyLineCount content := by
  have hcount := splitChar_length '\n' (jsTrim content.data)
  have hpos : 0 < (jsTrim content.data).count '\n' := by omega
  have hmem : '\n' ∈ jsTrim content.data := List.count_pos_iff.mp hpos
  have htne : jsTrim content.data ≠ [] := List.ne_nil_of_mem hmem
  obtain ⟨c, hc⟩ : ∃ c, (jsTrim content.data).head? = some c := by
    cases he : jsTrim content.data with
    | nil => exact absurd he htne
    | cons a l => exact ⟨a, rfl⟩
  have hcne : c ≠ '\n' := by
    intro e
    have := jsTrim_head_not_ws content.data c hc
    rw [e] at this
    exact absurd this (by decide)
  obtain ⟨c', hc'⟩ : ∃ c', (jsTrim content.data).getLast? = some c' := by
    cases he : (jsTrim content.data).getLast? with
    | none => exact absurd (List.getLast?_eq_none_iff.mp he) htne
    | some a => exact ⟨a, rfl⟩
  have hc'ne : c' ≠ '\n' := by
    intro e
    have := jsTrim_last_not_ws content.data c' hc'
    rw [e] at this
    exact absurd this (by decide)
  obtain ⟨m, ms, hsplit, hm⟩ := splitChar_head_mem '\n' (jsTrim content.data) c hc hcne
  obtain ⟨m', hml, hm'⟩ := splitChar_last_mem '\n' (jsTrim content.data) c' hc' hc'ne
  obtain ⟨b, ms', rfl⟩ : ∃ b ms', ms = b :: ms' := by
    cases hms : ms with
    | nil => rw [hsplit, hms] at h; simp at h
    | cons b ms' => exact ⟨b, ms', rfl⟩
  have hm'in : m' ∈ b :: ms' := by
    rw [hsplit, List.getLast?_cons_cons] at hml
    exact mem_of_getLastQ hml
  have hmne : (!m.isEmpty) = true := by
    cases m with
    | nil => cases hm
    | cons x xs => rfl
  have hm'ne : (!m'.isEmpty) = true := by
    cases hmm : m' with
    | nil => rw [hmm] at hm'; cases hm'
    | cons x xs => rfl
  unfold nonEmptyLineCount
  rw [hsplit]
  rw [List.filter_cons_of_pos]
  · have : m' ∈ (b :: ms').filter (fun l => !l.isEmpty) := List.mem_filter.mpr ⟨hm'in, hm'ne⟩
    have hlen := List.length_pos.mpr (List.ne_nil_of_mem this)
    simp only [List.length_cons]
    omega
  · exact hmne

/-- Rows emitted by `pushRow` contain a non-whitespace character. -/
theorem pushRow_nonblank (cur r : List Char) (h : r ∈ ExtImport.pushRow cur) :
    r.any (fun c => !(isJsWs c)) = true := by
  unfold ExtImport.pushRow at h
  by_cases hc : cur.any (fun c => !(isJsWs c)) = true
  · rw [if_pos hc] at h
    simp only [List.mem_singleton] at h
    rw [h]; exact hc
  · rw [if_neg hc] at h
    cases h

/-- Every row produced by the quote-aware row splitter contains a
non-whitespace character (fuelled induction on the input length). -/
theorem splitCSVRowsAux_nonblank : ∀ (n : Nat) (l cur : List Char) (inQ : Bool)
    (r : List Char), l.length ≤ n → r ∈ ExtImport.splitCSVRowsAux cur inQ l →
    r.any (fun c => !(isJsWs c)) = true := by
  intro n
  induction n with
  | zero =>
    intro l cur inQ r hlen hr
    have hl : l = [] := by cases l with | nil => rfl | cons a t => simp at hlen
    subst hl
    exact pushRow_nonblank cur r hr
  | succ n ih =>
    intro l cur inQ r hlen hr
    rw [ExtImport.splitCSVRowsAux.eq_def] at hr
    split at hr
    · exact pushRow_nonblank cur r hr
    · next rest =>
      simp only [List.length_cons] at hlen
      exact ih rest (cur ++ ['"']) (!inQ) r (by omega) hr
    · next rest =>
      simp only [List.length_cons] at hlen
      by_cases hq : inQ = true
      · rw [if_pos hq] at hr
        exact ih rest (cur ++ ['\r', '\n']) inQ r (by omega) hr
      · rw [if_neg hq] at hr
        rcases List.mem_append.mp hr with hr | hr
        · exact pushRow_nonblank cur r hr
        · exact ih rest [] inQ r (by omega) hr
    · next rest hne =>
      simp only [List.length_cons] at hlen
      by_cases hq : inQ = true
      · rw [if_pos hq] at hr
        exact ih rest (cur ++ ['\r']) inQ r (by omega) hr
      · rw [if_neg hq] at hr
        rcases List.mem_append.mp hr with hr | hr
        · exact pushRow_nonblank cur r hr
        · exact ih rest [] inQ r (by omega) hr
    · next rest =>
      simp only [List.length_cons] at hlen
      by_cases hq : inQ = true
      · rw [if_pos hq] at hr
        exact ih rest (cur ++ ['\n']) inQ r (by omega) hr
      · rw [if_neg hq] at hr
        rcases List.mem_append.mp hr with hr | hr
        · exact pushRow_nonblank cur r hr
        · exact ih rest [] inQ r (by omega) hr
    · next c rest h1 h2 h3 h4 =>
      simp only [List.length_cons] at hlen
      exact ih rest (cur ++ [c]) inQ r (by omega) hr

/-- C9: each `parseCSV` is total — below two (non-empty) rows it returns the
empty list, otherwise it returns exactly one parsed row per data row; the
rows of the extended dialog's splitter are always non-blank; and an
unparseable amount falls back to 0 in the parsed row (likewise the account
dialog's opening balance). -/
theorem c9_parse_csv_total :
    (∀ content : String, nonEmptyLineCount content < 2 →
      TxnImport.parseCSV content = []) ∧
    (∀ content : String, nonEmptyLineCount content < 2 →
      AcctImport.parseCSV content = []) ∧
    (∀ content : String, (ExtImport.splitCSVRows (jsTrim content.data)).length < 2 →
      ExtImport.parseCSV content = []) ∧
    (∀ content : String, 2 ≤ (splitChar '\n' (jsTrim content.data)).length →
      (TxnImport.parseCSV content).length
        = (splitChar '\n' (jsTrim content.data)).length - 1) ∧
    (∀ content : String, 2 ≤ (splitChar '\n' (jsTrim content.data)).length →
      (AcctImport.parseCSV content).length
        = (splitChar '\n' (jsTrim content.data)).length - 1) ∧
    (∀ content : String, 2 ≤ (ExtImport.splitCSVRows (jsTrim content.data)).length →
      (ExtImport.parseCSV content).length
        = (ExtImport.splitCSVRows (jsTrim content.data)).length - 1) ∧
    (∀ (l : List Char), ∀ r ∈ ExtImport.splitCSVRows l,
      r.any (fun c => !(isJsWs c)) = true) ∧
    (∀ row : String → String, jsParseFloat (row "amount") = none →
      (TxnImport.parseRow row).amount = JSNum.fin 0) ∧
    (∀ (i : Nat) (row : String → String), jsParseFloat (stripCommas (row "amount")) = none →
      (ExtImport.parseRow i row).amount = JSNum.fin 0) ∧
    (∀ (i : Nat) (row : String → String), jsParseFloat (row "opening_balance") = none →
      (AcctImport.parseRow i row).opening_balance = JSNum.fin 0) := by
  refine ⟨?_, ?_, ?_, ?_, ?_, ?_, ?_, ?_, ?_, ?_⟩
  · intro content h
    have hlt : (splitChar '\n' (jsTrim content.data)).length < 2 := by
      by_contra hge
      push_neg at hge
      have := two_nonempty_of_two_lines content hge
      omega
    simp only [TxnImport.parseCSV]
    rw [if_pos (by rw [List.length_map]; exact hlt)]
  · intro content h
    have hlt : (splitChar '\n' (jsTrim content.data)).length < 2 := by
      by_contra hge
      push_neg at hge
      have := two_nonempty_of_two_lines content hge
      omega
    simp only [AcctImport.parseCSV]
    rw [if_pos (by rw [List.length_map]; exact hlt)]
  · intro content h
    simp only [ExtImport.parseCSV]
    rw [if_pos (by rw [List.length_map]; exact h)]
  · intro content h
    simp only [TxnImport.parseCSV]
    rw [if_neg (by rw [List.length_map]; omega)]
    simp [List.length_map, List.length_drop]
  · intro content h
    simp only [AcctImport.parseCSV]
    rw [if_neg (by rw [List.length_map]; omega)]
    simp [List.length_map, List.enum_length, List.length_drop]
  · intro content h
    simp only [ExtImport.parseCSV]
    rw [if_neg (by rw [List.length_map]; omega)]
    simp [List.length_map, List.enum_length, List.length_drop]
  · intro l r hr
    exact splitCSVRowsAux_nonblank l.length l [] false r (le_refl _) hr
  · intro row h
    show jsOrZero (jsParseFloat (row "amount")) = JSNum.fin 0
    rw [h]
    rfl
  · intro i row h
    show jsOrZero (jsParseFloat (stripCommas (row "amount"))) = JSNum.fin 0
    rw [h]
    rfl
  · intro i row h
    show jsOrZero (jsParseFloat (row "opening_balance")) = JSNum.fin 0
    rw [h]
    rfl

/-- C9 witness: a header-only file parses to the empty list, and a concrete
unparseable amount falls back to 0. -/
theorem c9_parse_csv_total_witness :
    nonEmptyLineCount "transaction_date,amount" < 2 ∧
    TxnImport.parseCSV "transaction_date,amount" = [] ∧
    jsParseFloat ((fun _ => "abc") "amount") = none ∧
    (TxnImport.parseRow (fun _ => "abc")).amount = JSNum.fin 0 :=
  ⟨by decide, c9_parse_csv_total.1 "transaction_date,amount" (by decide),
   by decide, c9_parse_csv_total.2.2.2.2.2.2.2.1 (fun _ => "abc") (by decide)⟩

/-- C7 witness: a concrete row with date `2024/01/01` is rejected by the
date-format check. -/
theorem c7_date_format_check_witness :
    sampleRowBadDate "transaction_date" ≠ "" ∧
    ¬ specDateShape (sampleRowBadDate "transaction_date") ∧
    (TxnImport.parseRow sampleRowBadDate).isValid = false := by
  have hne : sampleRowBadDate "transaction_date" ≠ "" := by decide
  have hns : ¬ specDateShape (sampleRowBadDate "transaction_date") := by
    rintro ⟨a, b, c, d, e, f, g, k, hdata, -, -, -, -, -, -, -, -⟩
    rw [show sampleRowBadDate "transaction_date" = "2024/01/01" from rfl] at hdata
    have h4 : (some '/' : Option Char) = some '-' := by
      rw [show (some '/' : Option Char) = ("2024/01/01" : String).data[4]? from rfl, hdata]
      rfl
    exact absurd h4 (by decide)
  exact ⟨hne, hns, ((c7_date_format_check 0 sampleRowBadDate hne).2.2 hns).1⟩

end FinanceFriend
